import Mathlib

/-!
Verification development for the pal-node dependency-resolution and
template-compilation core (`src/core/resolver.ts`, `src/core/compiler.ts`).

The TypeScript code is shallowly embedded: JavaScript's dynamically typed
values become the inductive `JSValue`; JavaScript objects and Maps become
association lists with overwrite-on-set semantics; thrown exceptions become
`Except`; the asynchronous resolver recursion (which is unbounded when the
dependency graph is cyclic) is given an explicit fuel argument, where running out
of fuel models non-termination / unbounded recursion.  JS builtins used by the
code (`Number`, `String`, `Boolean`, `toLowerCase`, `path.dirname`,
`path.resolve`, regular expressions) are modelled by small Lean functions that
are faithful on the (ASCII, decimal) inputs the code and its tests exercise;
each such model carries a comment naming the builtin it stands for.
-/

namespace Pal

/-- Dynamically typed JavaScript value as seen by the compiler: the runtime
values that can appear in the `variables` record and the rendering context.
`vnan` is the JS number `NaN` (kept separate so every `vnum` is a finite
number, modelled as a rational). -/
inductive JSValue : Type where
  | vstr (s : String)
  | vnum (q : Rat)
  | vnan
  | vbool (b : Bool)
  | vnull
  | vlist (elems : List JSValue)
  | vdict (entries : List (String × JSValue))

/-- Model of the JavaScript `typeof` operator on the embedded values
(`typeof null`, arrays and plain objects are all `"object"`). -/
def jsTypeof : JSValue → String
  | .vstr _ => "string"
  | .vnum _ => "number"
  | .vnan => "number"
  | .vbool _ => "boolean"
  | .vnull => "object"
  | .vlist _ => "object"
  | .vdict _ => "object"

/-- Model of JavaScript `String.prototype.toLowerCase` (ASCII scope). -/
def jsToLower (s : String) : String := ⟨s.data.map Char.toLower⟩

/-- Model of the JavaScript whitespace class `\s` (ASCII scope: space, tab,
newline, carriage return, vertical tab, form feed). -/
def isJsWs (c : Char) : Bool :=
  c = ' ' || c = '\t' || c = '\n' || c = '\r' || c = '\x0b' || c = '\x0c'

/-- Decimal value of a digit string. -/
def digitsVal (cs : List Char) : Nat :=
  cs.foldl (fun acc c => 10 * acc + (c.toNat - '0'.toNat)) 0

/-- Model of JavaScript `Number(...)` applied to a string (ECMA ToNumber):
trimmed empty string is `0`; otherwise an optional sign followed by a decimal
literal with an optional fraction part; anything else is `NaN` (`none`).
Hexadecimal, exponent and `Infinity` forms are outside the modelled scope. -/
def jsStringToNumberCore (cs : List Char) : Option Rat :=
  let intPart := cs.takeWhile Char.isDigit
  let rest := cs.dropWhile Char.isDigit
  match rest with
  | [] => if intPart.isEmpty then none else some (digitsVal intPart : Rat)
  | '.' :: frac =>
      if frac.all Char.isDigit && !(intPart.isEmpty && frac.isEmpty) then
        some ((digitsVal intPart : Rat) + (digitsVal frac : Rat) / ((10 : Rat) ^ frac.length))
      else none
  | _ => none

/-- Model of JavaScript `Number(...)` on strings, handling trimming and sign. -/
def jsStringToNumber (s : String) : Option Rat :=
  let t := ((s.data.dropWhile isJsWs).reverse.dropWhile isJsWs).reverse
  match t with
  | [] => some 0
  | '+' :: rest => jsStringToNumberCore rest
  | '-' :: rest => (jsStringToNumberCore rest).map Neg.neg
  | cs => jsStringToNumberCore cs

/-- Model of JavaScript number-to-string conversion.  Integral values are
rendered exactly as JS does; the decimal rendering of non-integral floats is
out of the modelled scope and is rendered as `num/den` (no claim depends on
it). -/
def ratToString (q : Rat) : String :=
  if q.den = 1 then toString q.num else toString q.num ++ "/" ++ toString q.den

mutual

/-- Model of the JavaScript `String(...)` builtin on the embedded values.
Arrays stringify as their elements joined with commas (with `null` rendered
empty, as `Array.prototype.join` does); plain objects as
`[object Object]`. -/
def jsToString : JSValue → String
  | .vstr s => s
  | .vnum q => ratToString q
  | .vnan => "NaN"
  | .vbool b => if b then "true" else "false"
  | .vnull => "null"
  | .vlist xs => String.intercalate "," (jsToStringElems xs)
  | .vdict _ => "[object Object]"

/-- Elementwise stringification used by the array case of `jsToString`. -/
def jsToStringElems : List JSValue → List String
  | [] => []
  | .vnull :: rest => "" :: jsToStringElems rest
  | v :: rest => jsToString v :: jsToStringElems rest

end

/-- Model of JavaScript `Number(...)` on the embedded values (`none` = NaN).
Arrays coerce through their string form; plain objects are NaN. -/
def jsToNumber : JSValue → Option Rat
  | .vstr s => jsStringToNumber s
  | .vnum q => some q
  | .vnan => none
  | .vbool b => some (if b then 1 else 0)
  | .vnull => some 0
  | .vlist xs => jsStringToNumber (jsToString (.vlist xs))
  | .vdict _ => none

/-- Model of JavaScript `Boolean(...)` (truthiness): `0`, `NaN`, `null` and
the empty string are falsy; every array and every object is truthy. -/
def jsTruthy : JSValue → Bool
  | .vstr s => s ≠ ""
  | .vnum q => q ≠ 0
  | .vnan => false
  | .vbool b => b
  | .vnull => false
  | .vlist _ => true
  | .vdict _ => true

/-- The declared variable types of the PAL schema (`VariableTypeValue`). -/
inductive VarType : Type where
  | string | integer | float | boolean | list | dict | any
deriving Repr, DecidableEq

/-- The schema enum value as a string, as it appears in error messages. -/
def varTypeStr : VarType → String
  | .string => "string"
  | .integer => "integer"
  | .float => "float"
  | .boolean => "boolean"
  | .list => "list"
  | .dict => "dict"
  | .any => "any"

/-- Embeds `PromptCompiler.convertToInt`: booleans are rejected explicitly,
otherwise the value is numerically coerced and must be a mathematical
integer. -/
def convertToInt (value : JSValue) : Except String Rat :=
  if jsTypeof value = "boolean" then
    .error "Boolean cannot be converted to integer"
  else
    match jsToNumber value with
    | some num =>
        if num.den = 1 then .ok num
        else .error (s!"Cannot convert {jsTypeof value} to integer")
    | none => .error (s!"Cannot convert {jsTypeof value} to integer")

/-- Embeds `PromptCompiler.convertToFloat`: booleans are rejected explicitly,
otherwise the value is numerically coerced and must not be NaN. -/
def convertToFloat (value : JSValue) : Except String Rat :=
  if jsTypeof value = "boolean" then
    .error "Boolean cannot be converted to float"
  else
    match jsToNumber value with
    | some num => .ok num
    | none => .error (s!"Cannot convert {jsTypeof value} to float")

/-- Embeds `PromptCompiler.convertToBool`: strings are matched
case-insensitively against the accepted literal sets, every other value is
passed through JS truthiness. -/
def convertToBool (value : JSValue) : Except String Bool :=
  match value with
  | .vstr s =>
      let lowerVal := jsToLower s
      if lowerVal = "true" || lowerVal = "1" || lowerVal = "yes" || lowerVal = "on" then
        .ok true
      else if lowerVal = "false" || lowerVal = "0" || lowerVal = "no" || lowerVal = "off" then
        .ok false
      else .error (s!"Cannot convert string \x27{s}\x27 to boolean")
  | v => .ok (jsTruthy v)

/-- Embeds `PromptCompiler.convertToList`: the value must already be an
array (`Array.isArray`), else the error names the actual `typeof`. -/
def convertToList (value : JSValue) : Except String (List JSValue) :=
  match value with
  | .vlist xs => .ok xs
  | v => .error (s!"Expected array, got {jsTypeof v}")

/-- Embeds `PromptCompiler.convertToDict`: the source rejects values with
`typeof value !== 'object' || value === null || Array.isArray(value)`, which
leaves exactly the plain objects. -/
def convertToDict (value : JSValue) : Except String (List (String × JSValue)) :=
  match value with
  | .vdict kvs => .ok kvs
  | v => .error (s!"Expected object, got {jsTypeof v}")

/-- Embeds `PromptCompiler.convertVariable`: dispatch on the declared type.
The source's `default:` branch (unknown type string) is unreachable here
because `VarType` is the closed schema enum. -/
def convertVariable (value : JSValue) (varType : VarType) : Except String JSValue :=
  match varType with
  | .any => .ok value
  | .string => .ok (.vstr (jsToString value))
  | .integer => (convertToInt value).map .vnum
  | .float => (convertToFloat value).map .vnum
  | .boolean => (convertToBool value).map .vbool
  | .list => (convertToList value).map .vlist
  | .dict => (convertToDict value).map .vdict

/-! ## String machinery: the component-reference regex and the blank-line regex -/

/-- The regex class `[a-zA-Z_]` (identifier start). -/
def isIdentStart (c : Char) : Bool := c.isAlpha || c = '_'

/-- The regex class `[a-zA-Z0-9_]` (identifier continuation). -/
def isIdentChar (c : Char) : Bool := c.isAlpha || c.isDigit || c = '_'

/-- One match attempt, at the head of the list, of the component-reference
regex `\{\{\s*([a-zA-Z_][a-zA-Z0-9_]*\.[a-zA-Z_][a-zA-Z0-9_]*)\s*\}\}` used by
`Resolver.validateReferences`.  The pattern is deterministic (each `\s*` and
identifier run is followed by a character class disjoint from it, so greedy
matching never backtracks).  Returns the captured dotted reference and the
suffix after the match. -/
def matchRefAt (cs : List Char) : Option (String × List Char) :=
  match cs with
  | '\x7b' :: '\x7b' :: rest =>
    match rest.dropWhile isJsWs with
    | c1 :: r1 =>
      if isIdentStart c1 then
        match r1.dropWhile isIdentChar with
        | '.' :: c2 :: r4 =>
          if isIdentStart c2 then
            match (r4.dropWhile isIdentChar).dropWhile isJsWs with
            | '\x7d' :: '\x7d' :: r7 =>
                some (⟨(c1 :: r1.takeWhile isIdentChar) ++ '.' :: c2 :: r4.takeWhile isIdentChar⟩,
                      r7)
            | _ => none
          else none
        | _ => none
      else none
    | [] => none
  | _ => none

/-- The `while ((match = componentRegex.exec(composition)) !== null)` loop:
successive non-overlapping leftmost matches.  On a failed attempt the scan
advances one character (as the regex engine retries at the next position); the
fuel, initialised to the string length, is an upper bound on the number of
steps because every step consumes at least one character. -/
def scanRefsAux : Nat → List Char → List String
  | 0, _ => []
  | _ + 1, [] => []
  | fuel + 1, c :: rest =>
    match matchRefAt (c :: rest) with
    | some (ref, remaining) => ref :: scanRefsAux fuel remaining
    | none => scanRefsAux fuel rest

/-- All dotted component references `alias.component` found in a string, in
scan order. -/
def scanComponentRefs (s : String) : List String := scanRefsAux s.data.length s.data

/-- Length of the leading JS-whitespace run. -/
def wsRunLen (cs : List Char) : Nat := (cs.takeWhile isJsWs).length

/-- Backtracking search for `\s*\n` at the head of the list: try `a`
whitespace characters followed by a literal newline, longest `a` first,
mirroring the regex engine's greedy matching of `\s*`.  Returns the number of
characters consumed (`a + 1`) and the remaining suffix. -/
def tryWsThenNl (cs : List Char) : Nat → Option (Nat × List Char)
  | 0 =>
    match cs with
    | '\n' :: rest => some (1, rest)
    | _ => none
  | a + 1 =>
    match cs.drop (a + 1) with
    | '\n' :: rest => some (a + 2, rest)
    | _ => tryWsThenNl cs a

/-- The `\s*\n+` tail of the blank-line pattern: greedy `\s*` (backtracking to
the last usable newline), then the greedy newline run. -/
def tryNlTail (rest2 : List Char) : Option Nat :=
  match tryWsThenNl rest2 (wsRunLen rest2) with
  | some (k2, rest3) => some (k2 + (rest3.takeWhile (fun c => c = '\n')).length)
  | none => none

/-- The middle `\s*\n` of the blank-line pattern with full backtracking: a
candidate length `a` for the first `\s*` is retried smaller whenever the rest
of the pattern cannot complete after it. -/
def tryNlAttempt (rest : List Char) (a : Nat) : Option Nat :=
  match rest.drop a with
  | '\n' :: rest2 =>
    match tryNlTail rest2 with
    | some k2 => some (a + 1 + k2)
    | none => none
  | _ => none

/-- Descending search over the candidate lengths of the first `\s*`. -/
def tryNlMid (rest : List Char) : Nat → Option Nat
  | 0 => tryNlAttempt rest 0
  | a + 1 =>
    match tryNlAttempt rest (a + 1) with
    | some k => some k
    | none => tryNlMid rest a

/-- One match attempt of the blank-line regex `\n\s*\n\s*\n+` (the pattern of
`PromptCompiler.cleanCompiledPrompt`) at the head of the list, following the
engine's backtracking order.  Returns the match length (always ≥ 3). -/
def matchNlRunAt : List Char → Option Nat
  | '\n' :: rest =>
    match tryNlMid rest (wsRunLen rest) with
    | some k => some (1 + k)
    | none => none
  | _ => none

/-- Model of `prompt.replace(/\n\s*\n\s*\n+/g, '\n\n')`: the left-to-right,
non-overlapping global replacement loop.  The fuel, initialised to the string
length, is an upper bound since every step consumes at least one character;
the replacement text is not rescanned. -/
def cleanNewlinesAux : Nat → List Char → List Char
  | 0, cs => cs
  | _ + 1, [] => []
  | fuel + 1, c :: rest =>
    match matchNlRunAt (c :: rest) with
    | some k => '\n' :: '\n' :: cleanNewlinesAux fuel ((c :: rest).drop k)
    | none => c :: cleanNewlinesAux fuel rest

/-- Model of JavaScript `String.prototype.trim` (ASCII whitespace scope). -/
def jsTrimChars (cs : List Char) : List Char :=
  ((cs.dropWhile isJsWs).reverse.dropWhile isJsWs).reverse

/-- Embeds `PromptCompiler.cleanCompiledPrompt`: collapse every run matched
by `\n\s*\n\s*\n+` to exactly two newlines, then strip leading and trailing
whitespace. -/
def cleanCompiledPrompt (prompt : String) : String :=
  ⟨jsTrimChars (cleanNewlinesAux prompt.data.length prompt.data)⟩

/-! ## Association lists with JavaScript object / Map semantics -/

/-- Key lookup in a JS object / Map modelled as an association list. -/
def getKey (m : List (String × α)) (k : String) : Option α :=
  match m with
  | [] => none
  | (k1, v) :: rest => if k1 = k then some v else getKey rest k

/-- JS object / Map assignment: overwrite in place when the key exists
(keeping its position, as JS insertion order does), else append. -/
def setKey (m : List (String × α)) (k : String) (v : α) : List (String × α) :=
  match m with
  | [] => [(k, v)]
  | (k1, v1) :: rest => if k1 = k then (k, v) :: rest else (k1, v1) :: setKey rest k v

/-- Key-presence test (`key in obj` / `map.has(key)`). -/
def containsKey (m : List (String × α)) (k : String) : Bool := (getKey m k).isSome

/-! ## Path handling (models of the Node `path` module and `URL`) -/

/-- Whether `pat` is an initial segment of `cs`. -/
def leadsWith : List Char → List Char → Bool
  | _, [] => true
  | [], _ :: _ => false
  | c :: rest, p :: ps => p = c && leadsWith rest ps

/-- Whether `pat` is a final segment of `s`. -/
def endsWithStr (s pat : String) : Bool := leadsWith s.data.reverse pat.data.reverse

/-- Model of `Resolver.isURL`: `new URL(path)` succeeding with an `http:` or
`https:` protocol, modelled as the corresponding textual test. -/
def isURL (path : String) : Bool :=
  leadsWith path.data "http://".data || leadsWith path.data "https://".data

/-- Embeds `Resolver.isAbsolutePath`: a leading slash or a Windows drive
letter (`/^[A-Za-z]:/`). -/
def isAbsolutePath (path : String) : Bool :=
  match path.data with
  | '/' :: _ => true
  | c :: ':' :: _ => c.isAlpha
  | _ => false

/-- Split a character list on a separator character (every separator
occurrence produces a boundary, like `String.prototype.split`). -/
def splitOnChar (sep : Char) : List Char → List (List Char)
  | [] => [[]]
  | c :: rest =>
    let r := splitOnChar sep rest
    if c = sep then [] :: r
    else match r with
         | h :: t => (c :: h) :: t
         | [] => [[c]]

/-- Model of Node `path.dirname` (posix): everything before the last slash;
`"."` when there is no slash; `"/"` when the only slash is the leading one. -/
def dirname (p : String) : String :=
  match p.data.reverse.dropWhile (fun c => c ≠ '/') with
  | [] => "."
  | ['/'] => "/"
  | _ :: restRev => ⟨restRev.reverse⟩

/-- Segment normalisation used by the `path.resolve` model: drop empty and
`.` segments, let `..` pop the previous segment. -/
def normalizeSegs (acc : List (List Char)) : List (List Char) → List (List Char)
  | [] => acc.reverse
  | seg :: rest =>
    if seg = [] || seg = ['.'] then normalizeSegs acc rest
    else if seg = ['.', '.'] then
      match acc with
      | [] => normalizeSegs [] rest
      | _ :: accRest => normalizeSegs accRest rest
    else normalizeSegs (seg :: acc) rest

/-- Model of Node `path.resolve(dir, rel)` in the scope the resolver uses it:
an absolute `rel` wins, otherwise `rel` is joined onto `dir` and the result is
normalised.  (Node would further prepend the process working directory when
neither part is absolute; that case is outside the modelled scope.) -/
def pathResolve (dir rel : String) : String :=
  let joined := if leadsWith rel.data ['/'] then rel.data else dir.data ++ '/' :: rel.data
  let segs := normalizeSegs [] (splitOnChar '/' joined)
  let body := String.intercalate "/" (segs.map fun seg => (⟨seg⟩ : String))
  if leadsWith joined ['/'] then "/" ++ body else body

/-! ## Data model (schema records, read-only once loaded) -/

/-- A named reusable text fragment (schema `Component`). -/
structure Component where
  name : String
  description : String
  content : String
  metadata : List (String × String)

/-- A versioned collection of components (schema `ComponentLibrary`; the
source field `type` is the library kind). -/
structure ComponentLibrary where
  pal_version : String
  library_id : String
  version : String
  description : String
  type : String
  components : List Component
  metadata : List (String × String)

/-- A declared template variable (schema `PALVariable`).  The schema default
`required: true` is applied at parse time, so `required` is an explicit field
here; `default = none` models the field being absent (`undefined`). -/
structure PALVariable where
  name : String
  type : VarType
  description : String
  required : Bool
  default : Option JSValue

/-- A versioned template document (schema `PromptAssembly`).  `imports` is
the ordered alias → path entries of the JS object (`Object.entries` order). -/
structure PromptAssembly where
  pal_version : String
  id : String
  version : String
  description : String
  imports : List (String × String)
  variableDefs : List PALVariable
  composition : List String
  metadata : List (String × String)

/-! ## Resolver -/

/-- The Loader collaborator at its interface boundary (spec §6): two
black-box operations; a failure carries the thrown error's message. -/
structure LoaderEnv where
  loadComponentLibrary : String → Except String ComponentLibrary
  loadPromptAssembly : String → Except String PromptAssembly

/-- Resolver-owned mutable state: the long-lived `ResolverCache` (canonical
path → library), plus a ghost log of Loader invocations (the path passed to
either Loader operation, in invocation order) used to state the memoization
claims; the log does not influence control flow. -/
structure RState where
  cache : List (String × ComponentLibrary)
  calls : List String

/-- Errors thrown by the resolver: `PALCircularDependencyError` and
`PALResolverError` with their structured context, plus `fuelOut`, which
models the recursion exhausting the call stack (non-termination) rather than
any thrown JS error. -/
inductive RErr : Type where
  | circular (msg : String) (path : String) (visitedPaths : List String)
  | resolverErr (msg : String) (path : String)
  | fuelOut

/-- Model of `Array.prototype.join('\n')` on the composition lines. -/
def joinNL : List String → String
  | [] => ""
  | [s] => s
  | s :: rest => s ++ "\n" ++ joinNL rest

/-- Embeds `Resolver.createLibraryFromAssembly`: the synthetic one-component
library standing for a nested prompt assembly. -/
def createLibraryFromAssembly (assembly : PromptAssembly) : ComponentLibrary :=
  { pal_version := "1.0"
    library_id := assembly.id
    version := assembly.version
    description := assembly.description
    type := "task"
    components := [{ name := "prompt"
                     description := assembly.description
                     content := joinNL assembly.composition
                     metadata := assembly.metadata }]
    metadata := assembly.metadata }

/-- Embeds `Resolver.resolveImportPath`: URLs pass through, relative paths
resolve against the directory of `basePath` when supplied. -/
def resolveImportPath (importPath : String) (basePath : Option String) : String :=
  if isURL importPath then importPath
  else
    match basePath with
    | some bp =>
        if !isAbsolutePath importPath then pathResolve (dirname bp) importPath
        else importPath
    | none => importPath

/-- `path.endsWith('.pal.lib') || path.endsWith('.lib.yml')`. -/
def isLibraryPath (path : String) : Bool :=
  endsWithStr path ".pal.lib" || endsWithStr path ".lib.yml"

/-- `path.endsWith('.pal') || path.endsWith('.yml')`. -/
def isAssemblyPath (path : String) : Bool :=
  endsWithStr path ".pal" || endsWithStr path ".yml"

mutual

/-- Embeds `Resolver.resolveDependencies`: a fresh result map and a fresh
`visitedPaths` set per call, then the import loop.  `fuel` bounds the
recursion depth; exhausting it models non-termination. -/
def resolveDependencies (env : LoaderEnv) :
    Nat → PromptAssembly → Option String → RState →
    Except RErr (List (String × ComponentLibrary)) × RState
  | 0, _, _, st => (.error .fuelOut, st)
  | fuel + 1, promptAssembly, basePath, st =>
      resolveImportsLoop env fuel promptAssembly.imports basePath [] [] st

/-- The `for (const [alias, importPath] of Object.entries(...))` loop of
`resolveDependencies`, threading the shared result map, the visited set and
the resolver state. -/
def resolveImportsLoop (env : LoaderEnv) :
    Nat → List (String × String) → Option String →
    List (String × ComponentLibrary) → List String → RState →
    Except RErr (List (String × ComponentLibrary)) × RState
  | 0, _ :: _, _, _, _, st => (.error .fuelOut, st)
  | _, [], _, resolved, _, st => (.ok resolved, st)
  | fuel + 1, (aliasName, importPath) :: restImports, basePath, resolved, visitedPaths, st =>
      match loadDependencyRecursive env fuel aliasName (resolveImportPath importPath basePath)
              resolved visitedPaths st with
      | (.ok resolvedNext, stNext) =>
          resolveImportsLoop env fuel restImports basePath resolvedNext visitedPaths stNext
      | (.error e, stNext) => (.error e, stNext)

/-- Embeds `Resolver.loadDependencyRecursive`: cycle guard, cache check, then
the suffix-directed load inside `try`/`catch`/`finally`.  The source adds
`path` to `visitedPaths` before the `try` and deletes it in the `finally`;
that addition is observable only through recursive calls receiving the same
set, and the only recursion goes through `resolveDependencies`, which
allocates a fresh set — so the set the caller passed is returned unchanged
and is threaded here as an unmodified parameter.  The `catch` rethrows a
`PALCircularDependencyError` unchanged and wraps every other thrown error
(loader failures, nested resolution failures, and the locally thrown
unsupported-file-type error alike) in a new `PALResolverError`; exhausted
fuel models non-termination and propagates through the `catch` unchanged. -/
def loadDependencyRecursive (env : LoaderEnv) :
    Nat → String → String → List (String × ComponentLibrary) → List String → RState →
    Except RErr (List (String × ComponentLibrary)) × RState
  | 0, _, _, _, _, st => (.error .fuelOut, st)
  | fuel + 1, aliasName, path, resolved, visitedPaths, st =>
      if visitedPaths.contains path then
        (.error (.circular (s!"Circular dependency detected in path: {path}") path visitedPaths), st)
      else
        match getKey st.cache path with
        | some lib => (.ok (setKey resolved aliasName lib), st)
        | none =>
          if isLibraryPath path then
            match env.loadComponentLibrary path with
            | .ok library =>
                (.ok (setKey resolved aliasName library),
                 { cache := setKey st.cache path library, calls := st.calls ++ [path] })
            | .error msg =>
                (.error (.resolverErr (s!"Failed to load dependency {path}: {msg}") path),
                 { st with calls := st.calls ++ [path] })
          else if isAssemblyPath path then
            match env.loadPromptAssembly path with
            | .ok nestedAssembly =>
                match resolveDependencies env fuel nestedAssembly (some (dirname path))
                        { st with calls := st.calls ++ [path] } with
                | (.ok nestedResolved, stNext) =>
                    let merged := nestedResolved.foldl (fun m kv => setKey m kv.1 kv.2) resolved
                    let library := createLibraryFromAssembly nestedAssembly
                    (.ok (setKey merged aliasName library),
                     { stNext with cache := setKey stNext.cache path library })
                | (.error (.circular msg p vs), stNext) =>
                    (.error (.circular msg p vs), stNext)
                | (.error .fuelOut, stNext) => (.error .fuelOut, stNext)
                | (.error (.resolverErr msg p), stNext) =>
                    (.error (.resolverErr (s!"Failed to load dependency {path}: {msg}") path),
                     stNext)
            | .error msg =>
                (.error (.resolverErr (s!"Failed to load dependency {path}: {msg}") path),
                 { st with calls := st.calls ++ [path] })
          else
            (.error (.resolverErr
              (s!"Failed to load dependency {path}: Unsupported file type: {path}") path), st)

end

/-! ## Compiler -/

/-- A value thrown by the templating engine: either a JS `Error` instance
(with its message) or an arbitrary non-`Error` thrown value. -/
inductive JSThrown : Type where
  | jsError (msg : String)
  | nonError (v : JSValue)

/-- The compiler-side error taxonomy as a closed union with structured
context fields (`PALResolverError` propagated from the resolver,
`PALMissingComponentError`, `PALMissingVariableError`, the two
`PALCompilerError` shapes, and a non-`Error` value rethrown unchanged). -/
inductive CompileError : Type where
  | resolver (e : RErr)
  | missingComponent (msg : String) (errors : List String)
  | missingVariable (msg : String) (missingVariables : List String)
  | typeErr (msg : String) (varName : String) (expectedType : String)
      (actualType : String) (value : String)
  | templateError (msg : String) (composition : String) (errMsg : String) (promptId : String)
  | rethrown (v : JSValue)

/-- The `const [alias, componentName] = reference.split('.')` destructuring:
the first two fields of the split (empty when absent). -/
def refParts (reference : String) : String × String :=
  (⟨(splitOnChar '.' reference.data).headD []⟩,
   ⟨((splitOnChar '.' reference.data).drop 1).headD []⟩)

/-- The `while` loop body of `Resolver.validateReferences`, over the scanned
references: split the dotted reference, check the alias, then the component.
The `!alias` guard of the source is the emptiness test. -/
def validateRefsLoop (resolvedLibraries : List (String × ComponentLibrary)) :
    List String → List String
  | [] => []
  | reference :: rest =>
      let aliasName := (refParts reference).1
      let componentName := (refParts reference).2
      if aliasName = "" then
        (s!"Unknown import alias: {aliasName}") :: validateRefsLoop resolvedLibraries rest
      else
        match getKey resolvedLibraries aliasName with
        | none =>
            (s!"Unknown import alias: {aliasName}") :: validateRefsLoop resolvedLibraries rest
        | some library =>
            match library.components.find? (fun c => c.name = componentName) with
            | some _ => validateRefsLoop resolvedLibraries rest
            | none =>
                (s!"Component \x27{componentName}\x27 not found in library \x27{aliasName}\x27. Available: "
                    ++ String.intercalate ", " (library.components.map (fun c => c.name)))
                  :: validateRefsLoop resolvedLibraries rest

/-- Embeds `Resolver.validateReferences` (non-throwing; returns the
diagnostic list). -/
def validateReferences (promptAssembly : PromptAssembly)
    (resolvedLibraries : List (String × ComponentLibrary)) : List String :=
  validateRefsLoop resolvedLibraries
    (scanComponentRefs (joinNL promptAssembly.composition))

/-- The accumulation loop of `PromptCompiler.checkMissingVariables`. -/
def checkMissingLoop (providedVars : List (String × JSValue)) :
    List PALVariable → List String
  | [] => []
  | varDef :: rest =>
      if varDef.required && !(containsKey providedVars varDef.name) && varDef.default.isNone then
        varDef.name :: checkMissingLoop providedVars rest
      else checkMissingLoop providedVars rest

/-- Embeds `PromptCompiler.checkMissingVariables`. -/
def checkMissingVariables (promptAssembly : PromptAssembly)
    (providedVars : List (String × JSValue)) : List String :=
  checkMissingLoop providedVars promptAssembly.variableDefs

/-- The per-type zero values of `addDefaultVariables`. -/
def defaultValueFor : VarType → JSValue
  | .string => .vstr ""
  | .list => .vlist []
  | .dict => .vdict []
  | .boolean => .vbool false
  | .integer => .vnum 0
  | .float => .vnum 0
  | .any => .vnull

/-- Embeds `PromptCompiler.addDefaultVariables` (the mutation loop as a
fold): an explicit `default` wins; otherwise a non-required variable gets its
type's zero value. -/
def addDefaultVariables : List PALVariable → List (String × JSValue) → List (String × JSValue)
  | [], typedVars => typedVars
  | varDef :: rest, typedVars =>
      addDefaultVariables rest
        (if !(containsKey typedVars varDef.name) then
          match varDef.default with
          | some d => setKey typedVars varDef.name d
          | none =>
              if !varDef.required then setKey typedVars varDef.name (defaultValueFor varDef.type)
              else typedVars
        else typedVars)

/-- `new Map(promptAssembly.variableDefs.map(v => [v.name, v]))`: a JS `Map`
built from entries, where a duplicate name keeps the last entry. -/
def varDefsMapGet (varDefs : List PALVariable) (name : String) : Option PALVariable :=
  varDefs.reverse.find? (fun v => v.name = name)

/-- The `for (const [name, value] of Object.entries(variables))` loop of
`typeCheckVariables`: declared variables are coerced (a coercion failure is
reported as a `PALCompilerError` naming the variable, its declared type and
the actual `typeof`), undeclared variables pass through as-is. -/
def typeCheckLoop (varDefs : List PALVariable) :
    List (String × JSValue) → List (String × JSValue) →
    Except CompileError (List (String × JSValue))
  | [], typedVars => .ok typedVars
  | (name, value) :: rest, typedVars =>
      match varDefsMapGet varDefs name with
      | some varDef =>
          match convertVariable value varDef.type with
          | .ok converted => typeCheckLoop varDefs rest (setKey typedVars name converted)
          | .error _ =>
              .error (.typeErr
                (s!"Type error for variable \x27{name}\x27: expected {varTypeStr varDef.type}, got {jsTypeof value}")
                name (varTypeStr varDef.type) (jsTypeof value) (jsToString value))
      | none => typeCheckLoop varDefs rest (setKey typedVars name value)

/-- Embeds `PromptCompiler.typeCheckVariables` (including the trailing
`addDefaultVariables` call on the accumulated map). -/
def typeCheckVariables (promptAssembly : PromptAssembly)
    (vars : List (String × JSValue)) : Except CompileError (List (String × JSValue)) :=
  match typeCheckLoop promptAssembly.variableDefs vars [] with
  | .ok typedVars => .ok (addDefaultVariables promptAssembly.variableDefs typedVars)
  | .error e => .error e

/-- The name → content dictionary of a library's components, built by the
assignment loop of `buildTemplateContext`. -/
def componentDict (library : ComponentLibrary) : List (String × JSValue) :=
  library.components.foldl (fun d c => setKey d c.name (.vstr c.content)) []

/-- Embeds `PromptCompiler.buildTemplateContext`: the typed variable map
plus one entry per alias (alias entries overwrite identically named
variables, as the JS assignments do). -/
def buildTemplateContext (resolvedLibraries : List (String × ComponentLibrary))
    (vars : List (String × JSValue)) : List (String × JSValue) :=
  resolvedLibraries.foldl (fun ctx al => setKey ctx al.1 (.vdict (componentDict al.2))) vars

/-- The truncated composition attached to a template-error context:
`fullComposition.substring(0, 500) + '...'` when longer than 500 characters,
the composition itself otherwise. -/
def truncateComposition (fullComposition : String) : String :=
  if fullComposition.data.length > 500 then (⟨fullComposition.data.take 500⟩ : String) ++ "..."
  else fullComposition

/-- Embeds `PromptCompiler.compile`.  The Nunjucks environment is modelled by
the `renderString` parameter (the templating engine is an external
dependency, spec §1); `st` is the injected long-lived resolver state and
`fuel` the resolver recursion bound.  The source never reads the cache again
within the same `compile` call, so the post-resolution resolver state is
dropped here. -/
def compile (env : LoaderEnv) (fuel : Nat) (st : RState)
    (promptAssembly : PromptAssembly) (vars : List (String × JSValue))
    (basePath : Option String)
    (renderString : String → List (String × JSValue) → Except JSThrown String) :
    Except CompileError String :=
  match resolveDependencies env fuel promptAssembly basePath st with
  | (.error e, _) => .error (.resolver e)
  | (.ok resolvedLibraries, _) =>
    let validationErrors := validateReferences promptAssembly resolvedLibraries
    if validationErrors.length > 0 then
      .error (.missingComponent (s!"Missing component references in {promptAssembly.id}")
        validationErrors)
    else
      let missingVars := checkMissingVariables promptAssembly vars
      if missingVars.length > 0 then
        .error (.missingVariable
          (s!"Missing required variables for {promptAssembly.id}: "
            ++ String.intercalate ", " missingVars)
          missingVars)
      else
        match typeCheckVariables promptAssembly vars with
        | .error e => .error e
        | .ok typedVariables =>
          let fullComposition := joinNL promptAssembly.composition
          match renderString fullComposition
                  (buildTemplateContext resolvedLibraries typedVariables) with
          | .ok compiledPrompt => .ok (cleanCompiledPrompt compiledPrompt)
          | .error (.jsError msg) =>
              .error (.templateError (s!"Template error in composition: {msg}")
                (truncateComposition fullComposition) msg promptAssembly.id)
          | .error (.nonError v) => .error (.rethrown v)

/-! ## Spec-side definitions (used to state the claims against the source) -/

/-- Spec-side reading of the missing-variable set (claim C3): the declared
variables that are required, not supplied, and have no default — in
declaration order. -/
def missingRequiredSpec (promptAssembly : PromptAssembly)
    (providedVars : List (String × JSValue)) : List String :=
  (promptAssembly.variableDefs.filter
    (fun v => v.required && !(containsKey providedVars v.name) && v.default.isNone)).map
      (fun v => v.name)

/-- Spec-side satisfiability of a dotted reference (claim C6): the alias is a
key of the resolved-library map and a component of that name exists there. -/
def refSatisfiable (resolvedLibraries : List (String × ComponentLibrary))
    (reference : String) : Bool :=
  match getKey resolvedLibraries (refParts reference).1 with
  | none => false
  | some library =>
      (library.components.find? (fun c => c.name = (refParts reference).2)).isSome

/-- Spec-side diagnostic for one dotted reference (claim C6), with the exact
message texts the spec prescribes; `none` when the reference is
satisfiable. -/
def refDiagnostic (resolvedLibraries : List (String × ComponentLibrary))
    (reference : String) : Option String :=
  match getKey resolvedLibraries (refParts reference).1 with
  | none => some (s!"Unknown import alias: {(refParts reference).1}")
  | some library =>
      match library.components.find? (fun c => c.name = (refParts reference).2) with
      | some _ => none
      | none =>
          some (s!"Component \x27{(refParts reference).2}\x27 not found in library \x27{(refParts reference).1}\x27. Available: "
            ++ String.intercalate ", " (library.components.map (fun c => c.name)))

/-- Two given characters occur adjacently in the list. -/
def hasPair (a b : Char) : List Char → Bool
  | [] => false
  | [_] => false
  | x :: y :: rest => (x = a && y = b) || hasPair a b (y :: rest)

/-- A string containing none of the Nunjucks tag openers `{{`, `{%`, `{#`:
such a string is literal text for the templating engine and renders as
itself. -/
def isLiteralTemplate (s : String) : Bool :=
  !(hasPair '\x7b' '\x7b' s.data) && !(hasPair '\x7b' '%' s.data)
    && !(hasPair '\x7b' '#' s.data)

/-- The alias part of a dotted reference string, as `validateReferences`
splits it. -/
def refAlias (reference : String) : String := (refParts reference).1

/-! ## Concrete instances for the counterexamples and witnesses -/

/-- An assembly at path `/a/self.pal` importing itself by absolute path. -/
def selfAsm : PromptAssembly :=
  { pal_version := "1.0", id := "selfref", version := "1.0.0", description := "d"
    imports := [("self", "/a/self.pal")], variableDefs := []
    composition := ["x"], metadata := [] }

/-- A loader under which `/a/self.pal` deserialises to `selfAsm`. -/
def selfEnv : LoaderEnv :=
  { loadComponentLibrary := fun _ => .error "no such library"
    loadPromptAssembly := fun p => if p = "/a/self.pal" then .ok selfAsm else .error "not found" }

/-- Assembly at `/a/A.pal`, importing `/a/B.pal` (half of a 2-cycle). -/
def cycleAsmA : PromptAssembly :=
  { pal_version := "1.0", id := "A", version := "1.0.0", description := "d"
    imports := [("b", "/a/B.pal")], variableDefs := [], composition := ["x"], metadata := [] }

/-- Assembly at `/a/B.pal`, importing `/a/A.pal` (other half of the 2-cycle). -/
def cycleAsmB : PromptAssembly :=
  { pal_version := "1.0", id := "B", version := "1.0.0", description := "d"
    imports := [("a", "/a/A.pal")], variableDefs := [], composition := ["x"], metadata := [] }

/-- A loader serving the two-assembly cycle `A → B → A`. -/
def cycleEnv : LoaderEnv :=
  { loadComponentLibrary := fun _ => .error "no such library"
    loadPromptAssembly := fun p =>
      if p = "/a/A.pal" then .ok cycleAsmA
      else if p = "/a/B.pal" then .ok cycleAsmB
      else .error "not found" }

/-- A rendering engine that returns every template unchanged (the behavior
of Nunjucks on literal text). -/
def literalEngine : String → List (String × JSValue) → Except JSThrown String :=
  fun s _ => .ok s

/-- Counterexample assembly for claim C3: no imports, one unsatisfiable
component reference in the composition, and one required variable without a
default. -/
def c3Asm : PromptAssembly :=
  { pal_version := "1.0", id := "c3", version := "1.0.0", description := "d"
    imports := []
    variableDefs := [{ name := "x", type := .string, description := "d"
                       required := true, default := none }]
    composition := ["\x7b\x7b a.b \x7d\x7d"], metadata := [] }

/-- A loader that fails for every path (used where the loader must not
succeed, e.g. the C5 counterexample). -/
def failEnv : LoaderEnv :=
  { loadComponentLibrary := fun _ => .error "File not found"
    loadPromptAssembly := fun _ => .error "File not found" }

/-- Counterexample assembly for claim C5: a single library import whose load
fails. -/
def c5Asm : PromptAssembly :=
  { pal_version := "1.0", id := "c5", version := "1.0.0", description := "d"
    imports := [("lib1", "/x/l.pal.lib")], variableDefs := [], composition := ["x"]
    metadata := [] }

/-- A one-component library used by the witnesses. -/
def witLib : ComponentLibrary :=
  { pal_version := "1.0", library_id := "wl", version := "1.0.0", description := "d"
    type := "trait"
    components := [{ name := "helper", description := "h"
                     content := "You are helpful.", metadata := [] }]
    metadata := [] }

/-- A loader serving exactly `witLib` at `/x/l.pal.lib`. -/
def witEnv : LoaderEnv :=
  { loadComponentLibrary := fun p => if p = "/x/l.pal.lib" then .ok witLib else .error "nf"
    loadPromptAssembly := fun _ => .error "nf" }

/-- Witness assembly importing `witLib`. -/
def witAsm : PromptAssembly :=
  { pal_version := "1.0", id := "wa", version := "1.0.0", description := "d"
    imports := [("lib1", "/x/l.pal.lib")], variableDefs := [], composition := ["x"]
    metadata := [] }

/-- Witness assembly for claim C2: no imports, literal lines with a long
blank-line run. -/
def c2Asm : PromptAssembly :=
  { pal_version := "1.0", id := "c2", version := "1.0.0", description := "d"
    imports := [], variableDefs := []
    composition := ["Line 1", "", "", "", "Line 2"], metadata := [] }

/-- Witness assembly for claim C7: one declared string variable. -/
def c7Asm : PromptAssembly :=
  { pal_version := "1.0", id := "c7", version := "1.0.0", description := "d"
    imports := []
    variableDefs := [{ name := "declared", type := .string, description := "d"
                       required := false, default := none }]
    composition := ["x"], metadata := [] }

/-- Witness assembly for claim C8: empty imports, a one-line composition. -/
def c8Asm : PromptAssembly :=
  { pal_version := "1.0", id := "c8", version := "1.0.0", description := "d"
    imports := [], variableDefs := [], composition := ["Hello"], metadata := [] }

/-- Witness assembly for claim C3: no imports, a clean composition, and one
required variable without a default. -/
def c3WitAsm : PromptAssembly :=
  { pal_version := "1.0", id := "c3w", version := "1.0.0", description := "d"
    imports := []
    variableDefs := [{ name := "x", type := .string, description := "d"
                       required := true, default := none }]
    composition := ["x"], metadata := [] }

/-- An engine that throws a JS `Error` with message `boom` (C8 witness). -/
def throwErrEngine : String → List (String × JSValue) → Except JSThrown String :=
  fun _ _ => .error (.jsError "boom")

/-- An engine that throws the non-`Error` string value `string error`
(C8 witness, mirroring the repository's own test). -/
def throwRawEngine : String → List (String × JSValue) → Except JSThrown String :=
  fun _ _ => .error (.nonError (.vstr "string error"))

/-! ## Helper lemmas -/

theorem getKey_setKey_same (m : List (String × α)) (k : String) (v : α) :
    getKey (setKey m k v) k = some v := by
  induction m with
  | nil => simp [setKey, getKey]
  | cons hd tl ih =>
    obtain ⟨k1, v1⟩ := hd
    by_cases h : k1 = k
    · simp [setKey, getKey, h]
    · simp [setKey, getKey, h, ih]

theorem getKey_setKey_other (m : List (String × α)) (k p : String) (v : α) (h : p ≠ k) :
    getKey (setKey m k v) p = getKey m p := by
  induction m with
  | nil => simp [setKey, getKey, h.symm]
  | cons hd tl ih =>
    obtain ⟨k1, v1⟩ := hd
    by_cases h1 : k1 = k
    · subst h1
      simp [setKey, getKey, h.symm]
    · simp [setKey, getKey, h1, ih]

theorem isSome_getKey_setKey (m : List (String × α)) (k p : String) (v : α)
    (h : (getKey m p).isSome = true) : (getKey (setKey m k v) p).isSome = true := by
  by_cases hk : p = k
  · subst hk; simp [getKey_setKey_same]
  · rw [getKey_setKey_other m k p v hk]; exact h

/-! ## Claim C4 -/

/-- C4: the type-coercion function `convertVariable` is a total Lean
function — hence total and deterministic — and satisfies the spec's table
instances: coercing the string `'42'` to integer yields the number 42;
coercing `true` to integer errors with the distinct boolean message;
`'yes'` to boolean yields true; `'off'` to boolean yields false; `'x'` to
list errors with a message naming the actual runtime type, which for `'x'`
is `"string"`. -/
theorem convertVariable_table_instances :
    convertVariable (.vstr "42") .integer = .ok (.vnum 42)
    ∧ convertVariable (.vbool true) .integer = .error "Boolean cannot be converted to integer"
    ∧ convertVariable (.vstr "yes") .boolean = .ok (.vbool true)
    ∧ convertVariable (.vstr "off") .boolean = .ok (.vbool false)
    ∧ convertVariable (.vstr "x") .list = .error "Expected array, got string"
    ∧ jsTypeof (.vstr "x") = "string" :=
  ⟨rfl, rfl, rfl, rfl, rfl, rfl⟩

/-! ## Claim C10 -/

/-- C10: boolean coercion is total on every non-string value and returns its
JavaScript truthiness — null is false, every list (even the empty one) is
true, every dict is true, booleans pass through, a finite number is true
exactly when nonzero, NaN is false — and a string coerces successfully
exactly when its lowercasing is in one of the accepted literal sets
`{true,1,yes,on}` / `{false,0,no,off}` (the non-string constructors listed
cover every non-string value, so only such a string can fail). -/
theorem convertToBool_nonstring_total :
    convertToBool .vnull = .ok false
    ∧ (∀ xs, convertToBool (.vlist xs) = .ok true)
    ∧ (∀ kvs, convertToBool (.vdict kvs) = .ok true)
    ∧ (∀ b, convertToBool (.vbool b) = .ok b)
    ∧ (∀ q : Rat, convertToBool (.vnum q) = .ok (decide (q ≠ 0)))
    ∧ convertToBool .vnan = .ok false
    ∧ (∀ s : String, (∃ b, convertToBool (.vstr s) = .ok b) ↔
        (jsToLower s = "true" ∨ jsToLower s = "1" ∨ jsToLower s = "yes" ∨ jsToLower s = "on"
          ∨ jsToLower s = "false" ∨ jsToLower s = "0" ∨ jsToLower s = "no"
          ∨ jsToLower s = "off")) := by
  refine ⟨rfl, fun xs => rfl, fun kvs => rfl, fun b => rfl, fun q => rfl, rfl, fun s => ?_⟩
  constructor
  · rintro ⟨b, hb⟩
    by_contra hno
    push_neg at hno
    obtain ⟨n1, n2, n3, n4, n5, n6, n7, n8⟩ := hno
    simp [convertToBool, n1, n2, n3, n4, n5, n6, n7, n8] at hb
  · intro h
    rcases h with h | h | h | h | h | h | h | h
    · exact ⟨true, by simp [convertToBool, h]⟩
    · exact ⟨true, by simp [convertToBool, h]⟩
    · exact ⟨true, by simp [convertToBool, h]⟩
    · exact ⟨true, by simp [convertToBool, h]⟩
    · exact ⟨false, by simp [convertToBool, h]⟩
    · exact ⟨false, by simp [convertToBool, h]⟩
    · exact ⟨false, by simp [convertToBool, h]⟩
    · exact ⟨false, by simp [convertToBool, h]⟩

/-- Every error produced by `typeCheckLoop` is the type-error shape, and the
variable it names is declared in the schema. -/
theorem typeCheckLoop_error_shape (defs : List PALVariable)
    (entries acc : List (String × JSValue)) (e : CompileError)
    (h : typeCheckLoop defs entries acc = .error e) :
    ∃ msg n et act val, e = .typeErr msg n et act val ∧ (varDefsMapGet defs n).isSome := by
  induction entries generalizing acc with
  | nil => simp [typeCheckLoop] at h
  | cons entry rest ih =>
    obtain ⟨name, value⟩ := entry
    rw [typeCheckLoop] at h
    rcases hd : varDefsMapGet defs name with _ | varDef
    · simp only [hd] at h
      exact ih _ h
    · simp only [hd] at h
      rcases hc : convertVariable value varDef.type with msg2 | converted
      · simp only [hc] at h
        cases h
        exact ⟨_, name, _, _, _, rfl, by simp [hd]⟩
      · simp only [hc] at h
        exact ih _ h

/-- `typeCheckVariables` fails only with the type-error shape, naming a
declared variable. -/
theorem typeCheckVariables_error_shape (asm : PromptAssembly)
    (vars : List (String × JSValue)) (e : CompileError)
    (h : typeCheckVariables asm vars = .error e) :
    ∃ msg n et act val, e = .typeErr msg n et act val
      ∧ (varDefsMapGet asm.variableDefs n).isSome := by
  unfold typeCheckVariables at h
  rcases ht : typeCheckLoop asm.variableDefs vars [] with e2 | tv
  · rw [ht] at h
    cases h
    exact typeCheckLoop_error_shape _ _ _ _ ht
  · rw [ht] at h
    cases h

/-! ## Claim C3 -/

theorem checkMissingLoop_eq_spec (providedVars : List (String × JSValue))
    (defs : List PALVariable) :
    checkMissingLoop providedVars defs =
      (defs.filter
        (fun v => v.required && !(containsKey providedVars v.name) && v.default.isNone)).map
          (fun v => v.name) := by
  induction defs with
  | nil => rfl
  | cons d tl ih =>
    by_cases h : (d.required && !(containsKey providedVars d.name) && d.default.isNone) = true
    · simp [checkMissingLoop, h, ih, List.filter_cons]
    · simp [checkMissingLoop, h, ih, List.filter_cons]

/-- C3 counterexample: for an assembly with an empty imports map, one
required variable `x` without a default, and a composition referencing the
unknown alias `a`, the missing-required set is the nonempty `["x"]`, yet
`compile` (called with no supplied variables) fails with the
missing-component error — reference validation runs before the variable
check, so the claim's promised `MissingVariableError` is not what is
raised. -/
theorem c3_counterexample :
    checkMissingVariables c3Asm [] = ["x"]
    ∧ compile failEnv 1 ⟨[], []⟩ c3Asm [] none literalEngine =
        .error (.missingComponent "Missing component references in c3"
          ["Unknown import alias: a"]) :=
  ⟨rfl, rfl⟩

/-- C3 (amended): for every assembly and supplied-variable map, provided
dependency resolution succeeds and reference validation passes, if the set
of declared variables that are required, not supplied, and without default
is non-empty then `compile` fails with a missing-variable error whose
context lists every such name in declaration order; moreover (without any
proviso) when that set is empty no missing-variable error is ever raised,
and the computed set equals its spec-side reading. -/
theorem compile_missing_variables (env : LoaderEnv) (fuel : Nat) (st : RState)
    (asm : PromptAssembly) (vars : List (String × JSValue)) (bp : Option String)
    (engine : String → List (String × JSValue) → Except JSThrown String)
    (libs : List (String × ComponentLibrary)) (st1 : RState)
    (hRes : resolveDependencies env fuel asm bp st = (.ok libs, st1))
    (hVal : validateReferences asm libs = []) :
    (checkMissingVariables asm vars ≠ [] →
      compile env fuel st asm vars bp engine =
        .error (.missingVariable
          (s!"Missing required variables for {asm.id}: "
            ++ String.intercalate ", " (missingRequiredSpec asm vars))
          (missingRequiredSpec asm vars)))
    ∧ (∀ env2 fuel2 st2 asm2 vars2 bp2 engine2,
        checkMissingVariables asm2 vars2 = [] →
        ∀ msg l, compile env2 fuel2 st2 asm2 vars2 bp2 engine2 ≠ .error (.missingVariable msg l))
    ∧ checkMissingVariables asm vars = missingRequiredSpec asm vars := by
  refine ⟨?_, ?_, checkMissingLoop_eq_spec vars asm.variableDefs⟩
  · intro hMiss
    have hspec : checkMissingVariables asm vars = missingRequiredSpec asm vars :=
      checkMissingLoop_eq_spec vars asm.variableDefs
    have hlen : 0 < (checkMissingVariables asm vars).length :=
      List.length_pos.mpr hMiss
    simp only [compile, hRes, hVal, List.length_nil, gt_iff_lt, lt_irrefl, if_false]
    rw [hspec] at hlen ⊢
    simp [hlen]
  · intro env2 fuel2 st2 asm2 vars2 bp2 engine2 hEmpty msg l
    unfold compile
    rcases hr : resolveDependencies env2 fuel2 asm2 bp2 st2 with ⟨r, str⟩
    rcases r with e | libs2
    · simp
    · simp only []
      by_cases hv : 0 < (validateReferences asm2 libs2).length
      · simp [hv]
      · simp only [hv, if_false]
        rw [hEmpty]
        simp only [List.length_nil, lt_irrefl, if_false]
        rcases ht : typeCheckVariables asm2 vars2 with e2 | tv
        · simp only [ht]
          obtain ⟨m3, n3, et3, act3, val3, he2, _⟩ := typeCheckVariables_error_shape _ _ _ ht
          subst he2
          simp
        · simp only [ht]
          rcases he : engine2 (joinNL asm2.composition) (buildTemplateContext libs2 tv)
            with t | s2
          · rcases t with m4 | v4 <;> simp [he]
          · simp [he]

/-! ## Claim C6 -/

/-- Splitting on the separator distributes over an occurrence of the
separator when the left part is separator-free. -/
theorem splitOnChar_append_sep (sep : Char) (xs ys : List Char)
    (h : ∀ c ∈ xs, c ≠ sep) :
    splitOnChar sep (xs ++ sep :: ys) = xs :: splitOnChar sep ys := by
  induction xs with
  | nil => simp [splitOnChar]
  | cons x xt ih =>
    have hx : x ≠ sep := h x (List.mem_cons_self x xt)
    have ht : ∀ c ∈ xt, c ≠ sep := fun c hc => h c (List.mem_cons_of_mem x hc)
    rw [List.cons_append, splitOnChar, if_neg hx, ih ht]

/-- The reference captured by one regex match splits into a nonempty
identifier alias and a component part. -/
theorem matchRefAt_alias_ne (cs : List Char) (ref : String) (rest : List Char)
    (h : matchRefAt cs = some (ref, rest)) : refAlias ref ≠ "" := by
  unfold matchRefAt at h
  split at h
  all_goals try exact Option.noConfusion h
  rename_i rest0
  split at h
  all_goals try exact Option.noConfusion h
  rename_i c1 r1 hdw1
  by_cases h1 : isIdentStart c1 = true
  case neg => rw [if_neg h1] at h; exact Option.noConfusion h
  rw [if_pos h1] at h
  split at h
  all_goals try exact Option.noConfusion h
  rename_i c2 r4 hdw2
  by_cases h2 : isIdentStart c2 = true
  case neg => rw [if_neg h2] at h; exact Option.noConfusion h
  rw [if_pos h2] at h
  split at h
  all_goals try exact Option.noConfusion h
  rename_i r7 hdw3
  have href : ref = (⟨(c1 :: List.takeWhile isIdentChar r1)
      ++ '.' :: c2 :: List.takeWhile isIdentChar r4⟩ : String) := by
    have := (Prod.mk.injEq _ _ _ _).mp (Option.some.inj h)
    exact this.1.symm
  subst href
  have hnodot : ∀ c ∈ c1 :: List.takeWhile isIdentChar r1, c ≠ '.' := by
    intro c hc
    rcases List.mem_cons.mp hc with hc | hc
    · subst hc
      intro hdot
      rw [hdot] at h1
      exact absurd h1 (by decide)
    · have hch := List.mem_takeWhile_imp hc
      intro hdot
      rw [hdot] at hch
      exact absurd hch (by decide)
  have hsplit := splitOnChar_append_sep '.' (c1 :: List.takeWhile isIdentChar r1)
    (c2 :: List.takeWhile isIdentChar r4) hnodot
  intro hempty
  have hdata := congrArg String.data hempty
  rw [refAlias, refParts] at hdata
  simp only [] at hdata
  rw [hsplit] at hdata
  simp at hdata

/-- Every reference the scanner returns has a nonempty alias part. -/
theorem scanRefsAux_alias_ne (fuel : Nat) (cs : List Char) :
    ∀ r ∈ scanRefsAux fuel cs, refAlias r ≠ "" := by
  induction fuel generalizing cs with
  | zero => simp [scanRefsAux]
  | succ n ih =>
    rcases cs with _ | ⟨c, rest⟩
    · simp [scanRefsAux]
    · rw [scanRefsAux]
      rcases hm : matchRefAt (c :: rest) with _ | ⟨ref, remaining⟩
      · exact ih rest
      · intro r hr
        rcases List.mem_cons.mp hr with hr | hr
        · subst hr
          exact matchRefAt_alias_ne _ _ _ hm
        · exact ih remaining r hr

/-- On references with nonempty alias, the source loop computes exactly the
spec-side diagnostics. -/
theorem validateRefsLoop_eq_filterMap (libs : List (String × ComponentLibrary))
    (refs : List String) (h : ∀ r ∈ refs, refAlias r ≠ "") :
    validateRefsLoop libs refs = refs.filterMap (refDiagnostic libs) := by
  induction refs with
  | nil => rfl
  | cons r rest ih =>
    have hr : (refParts r).1 ≠ "" := h r (List.mem_cons_self r rest)
    have hrest := fun x hx => h x (List.mem_cons_of_mem r hx)
    rw [validateRefsLoop, List.filterMap_cons]
    simp only [hr, if_false]
    rcases hg : getKey libs (refParts r).1 with _ | library
    · simp only [refDiagnostic, hg, ih hrest]
    · rcases hf : library.components.find? (fun c => c.name = (refParts r).2)
          with _ | comp
      · simp only [refDiagnostic, hg, hf, ih hrest]
      · simp only [refDiagnostic, hg, hf, ih hrest]

/-- A reference's spec diagnostic is absent exactly when it is satisfiable. -/
theorem refDiagnostic_none_iff (libs : List (String × ComponentLibrary)) (r : String) :
    refDiagnostic libs r = none ↔ refSatisfiable libs r = true := by
  unfold refDiagnostic refSatisfiable
  rcases hg : getKey libs (refParts r).1 with _ | library
  · simp
  · rcases hf : library.components.find? (fun c => c.name = (refParts r).2) with _ | comp <;>
      simp [hf]

/-- C6: `validateReferences` is a total function (the embedding of a
non-throwing source function); for each dotted reference scanned from the
joined composition it emits exactly the spec-prescribed message — unknown
alias, or component-not-found listing the available names — in scan order,
and it returns the empty list iff every scanned reference is satisfiable. -/
theorem validateReferences_diagnostics (asm : PromptAssembly)
    (libs : List (String × ComponentLibrary)) :
    validateReferences asm libs =
      (scanComponentRefs (joinNL asm.composition)).filterMap (refDiagnostic libs)
    ∧ (validateReferences asm libs = [] ↔
        ∀ r ∈ scanComponentRefs (joinNL asm.composition), refSatisfiable libs r = true) := by
  have h1 : validateReferences asm libs =
      (scanComponentRefs (joinNL asm.composition)).filterMap (refDiagnostic libs) :=
    validateRefsLoop_eq_filterMap libs _ (scanRefsAux_alias_ne _ _)
  refine ⟨h1, ?_⟩
  rw [h1, List.filterMap_eq_nil_iff]
  exact ⟨fun h r hr => (refDiagnostic_none_iff libs r).mp (h r hr),
         fun h r hr => (refDiagnostic_none_iff libs r).mpr (h r hr)⟩

/-! ## Claim C7 -/

/-- `addDefaultVariables` never changes a key that is already present. -/
theorem addDefaultVariables_preserves (defs : List PALVariable) :
    ∀ (acc : List (String × JSValue)) (nm : String),
      (getKey acc nm).isSome = true →
      getKey (addDefaultVariables defs acc) nm = getKey acc nm := by
  induction defs with
  | nil => intro acc nm _; rfl
  | cons d rest ih =>
    intro acc nm h
    rw [addDefaultVariables]
    by_cases hc : containsKey acc d.name = true
    · simp only [hc, Bool.not_true, Bool.false_eq_true, if_false]
      exact ih acc nm h
    · have hne : nm ≠ d.name := by
        intro he
        subst he
        exact hc h
      simp only [Bool.not_eq_true] at hc
      simp only [hc, Bool.not_false, if_true]
      rcases hd : d.default with _ | dv
      · by_cases hreq : d.required = true
        · simp only [hreq, Bool.not_true, Bool.false_eq_true, if_false]
          exact ih acc nm h
        · simp only [Bool.not_eq_true] at hreq
          simp only [hreq, Bool.not_false, if_true]
          have hpres := getKey_setKey_other acc d.name nm (defaultValueFor d.type) hne
          rw [ih _ nm (by rw [hpres]; exact h), hpres]
      · have hpres := getKey_setKey_other acc d.name nm dv hne
        rw [ih _ nm (by rw [hpres]; exact h), hpres]

/-- `typeCheckLoop` leaves keys that are not among the remaining entries
untouched. -/
theorem typeCheckLoop_preserves (defs : List PALVariable) :
    ∀ (entries acc : List (String × JSValue)) (nm : String) (tv : List (String × JSValue)),
      nm ∉ entries.map Prod.fst →
      typeCheckLoop defs entries acc = .ok tv →
      getKey tv nm = getKey acc nm := by
  intro entries
  induction entries with
  | nil =>
    intro acc nm tv _ h
    cases h
    rfl
  | cons entry rest ih =>
    obtain ⟨n0, v0⟩ := entry
    intro acc nm tv hnot h
    have hne : nm ≠ n0 := by
      intro he
      exact hnot (by simp [he])
    have hrest : nm ∉ rest.map Prod.fst := fun hm => hnot (by simp [hm])
    rw [typeCheckLoop] at h
    rcases hd : varDefsMapGet defs n0 with _ | varDef
    · simp only [hd] at h
      rw [ih _ nm tv hrest h, getKey_setKey_other acc n0 nm v0 hne]
    · simp only [hd] at h
      rcases hc : convertVariable v0 varDef.type with msg2 | converted
      · simp only [hc] at h
        cases h
      · simp only [hc] at h
        rw [ih _ nm tv hrest h, getKey_setKey_other acc n0 nm converted hne]

/-- On a successful `typeCheckLoop`, an undeclared entry's value lands in the
result verbatim (supplied names assumed unique, as JS object keys are). -/
theorem typeCheckLoop_sets (defs : List PALVariable) :
    ∀ (entries acc : List (String × JSValue)) (nm : String) (v : JSValue)
      (tv : List (String × JSValue)),
      (entries.map Prod.fst).Nodup →
      (nm, v) ∈ entries →
      varDefsMapGet defs nm = none →
      typeCheckLoop defs entries acc = .ok tv →
      getKey tv nm = some v := by
  intro entries
  induction entries with
  | nil =>
    intro acc nm v tv _ hm
    exact absurd hm (List.not_mem_nil _)
  | cons entry rest ih =>
    obtain ⟨n0, v0⟩ := entry
    intro acc nm v tv hnodup hm hundecl h
    have hnodup1 : (n0 :: rest.map Prod.fst).Nodup := by simpa using hnodup
    have hnodup2 : (rest.map Prod.fst).Nodup := (List.nodup_cons.mp hnodup1).2
    rcases List.mem_cons.mp hm with hm | hm
    · obtain ⟨he1, he2⟩ := Prod.mk.injEq .. ▸ hm
      subst he1
      subst he2
      have hnin : nm ∉ rest.map Prod.fst := (List.nodup_cons.mp hnodup1).1
      rw [typeCheckLoop, hundecl] at h
      simp only [] at h
      rw [typeCheckLoop_preserves defs rest _ nm tv hnin h,
        getKey_setKey_same acc nm v]
    · have hmemfst : nm ∈ rest.map Prod.fst := by
        exact List.mem_map.mpr ⟨(nm, v), hm, rfl⟩
      rw [typeCheckLoop] at h
      rcases hd : varDefsMapGet defs n0 with _ | varDef
      · simp only [hd] at h
        exact ih _ nm v tv hnodup2 hm hundecl h
      · simp only [hd] at h
        rcases hc : convertVariable v0 varDef.type with msg2 | converted
        · simp only [hc] at h
          cases h
        · simp only [hc] at h
          exact ih _ nm v tv hnodup2 hm hundecl h

/-- C7: a supplied variable whose name is not among the declared variable
definitions passes through the type-check step unchanged: when the step
succeeds, the rendering map holds its value verbatim (no coercion applied,
whatever the value's runtime type); and when the step fails, the error is a
type error naming a declared variable — hence never the undeclared one. -/
theorem typeCheck_undeclared_passthrough (asm : PromptAssembly)
    (vars : List (String × JSValue)) (nm : String) (v : JSValue)
    (hNodup : (vars.map Prod.fst).Nodup)
    (hMem : (nm, v) ∈ vars)
    (hUndecl : varDefsMapGet asm.variableDefs nm = none) :
    (∀ tv, typeCheckVariables asm vars = .ok tv → getKey tv nm = some v)
    ∧ (∀ e, typeCheckVariables asm vars = .error e →
        ∃ msg n et act val, e = .typeErr msg n et act val ∧ n ≠ nm
          ∧ (varDefsMapGet asm.variableDefs n).isSome = true) := by
  constructor
  · intro tv htv
    unfold typeCheckVariables at htv
    rcases ht : typeCheckLoop asm.variableDefs vars [] with e2 | tl
    · rw [ht] at htv
      cases htv
    · rw [ht] at htv
      cases htv
      have hset : getKey tl nm = some v :=
        typeCheckLoop_sets _ _ _ _ _ _ hNodup hMem hUndecl ht
      rw [addDefaultVariables_preserves _ _ _ (by rw [hset]; rfl), hset]
  · intro e he
    obtain ⟨msg, n, et, act, val, rfl, hdecl⟩ := typeCheckVariables_error_shape _ _ _ he
    refine ⟨msg, n, et, act, val, rfl, ?_, hdecl⟩
    intro hne
    subst hne
    rw [hUndecl] at hdecl
    exact absurd hdecl (by simp)

/-- C7 witness: the pass-through theorem applied at a concrete input — the
undeclared `extra` (an empty list value) survives the type-check step
unchanged next to the declared `declared`. -/
theorem typeCheck_undeclared_passthrough_witness :
    ∃ tv, typeCheckVariables c7Asm
        [("declared", JSValue.vstr "a"), ("extra", JSValue.vlist [])] = .ok tv
      ∧ getKey tv "extra" = some (JSValue.vlist []) :=
  ⟨_, rfl,
    (typeCheck_undeclared_passthrough c7Asm
      [("declared", JSValue.vstr "a"), ("extra", JSValue.vlist [])]
      "extra" (JSValue.vlist []) (by decide)
      (List.mem_cons_of_mem _ (List.mem_cons_self _ _)) rfl).1 _ rfl⟩

/-! ## Claim C8 -/

/-- C8: when rendering throws a non-Error value, `compile` re-throws exactly
that value unchanged (not wrapped in a compiler error); when rendering throws
an Error, `compile` wraps it as the compiler error whose context carries the
assembly id and a copy of the composition text truncated to at most 500
characters with an ellipsis suffix when longer. -/
theorem compile_render_failure (env : LoaderEnv) (fuel : Nat) (st : RState)
    (asm : PromptAssembly) (vars : List (String × JSValue)) (bp : Option String)
    (engine : String → List (String × JSValue) → Except JSThrown String)
    (libs : List (String × ComponentLibrary)) (st1 : RState)
    (tv : List (String × JSValue)) (thrown : JSThrown)
    (hRes : resolveDependencies env fuel asm bp st = (.ok libs, st1))
    (hVal : validateReferences asm libs = [])
    (hMiss : checkMissingVariables asm vars = [])
    (hTy : typeCheckVariables asm vars = .ok tv)
    (hRender : engine (joinNL asm.composition) (buildTemplateContext libs tv)
      = .error thrown) :
    compile env fuel st asm vars bp engine =
      match thrown with
      | .nonError v => .error (.rethrown v)
      | .jsError msg => .error (.templateError (s!"Template error in composition: {msg}")
          (if (joinNL asm.composition).data.length > 500
            then (⟨(joinNL asm.composition).data.take 500⟩ : String) ++ "..."
            else joinNL asm.composition)
          msg asm.id) := by
  unfold compile
  rw [hRes]
  simp only [hVal, hMiss, List.length_nil, lt_self_iff_false, if_false, hTy, hRender]
  cases thrown with
  | jsError msg => rfl
  | nonError v => rfl

/-- C8 witness: the wrap/rethrow theorem applied at a concrete input, for
both thrown shapes. -/
theorem compile_render_failure_witness :
    compile failEnv 1 ⟨[], []⟩ c8Asm [] none throwRawEngine
        = .error (.rethrown (.vstr "string error"))
    ∧ compile failEnv 1 ⟨[], []⟩ c8Asm [] none throwErrEngine
        = .error (.templateError "Template error in composition: boom" "Hello" "boom" "c8") :=
  ⟨compile_render_failure failEnv 1 ⟨[], []⟩ c8Asm [] none throwRawEngine [] ⟨[], []⟩ []
      (.nonError (.vstr "string error")) rfl rfl rfl rfl rfl,
   compile_render_failure failEnv 1 ⟨[], []⟩ c8Asm [] none throwErrEngine [] ⟨[], []⟩ []
      (.jsError "boom") rfl rfl rfl rfl rfl⟩

/-! ## Claim C2 -/

/-- Absence of an adjacent pair is preserved by dropping the head. -/
theorem hasPair_tail (a b c : Char) (rest : List Char)
    (h : hasPair a b (c :: rest) = false) : hasPair a b rest = false := by
  cases rest with
  | nil => rfl
  | cons y t =>
    rw [hasPair] at h
    exact (Bool.or_eq_false_iff.mp h).2

/-- The three defining equations of `hasPair`, packaged for rewriting. -/
theorem hasPair_cons2 (a b x y : Char) (t : List Char) :
    hasPair a b (x :: y :: t) = ((x = a && y = b) || hasPair a b (y :: t)) := rfl

/-- Without the `{{` opener anywhere, the reference scan finds nothing. -/
theorem scanRefsAux_nil_of_no_marker (fuel : Nat) (cs : List Char)
    (h : hasPair '\x7b' '\x7b' cs = false) : scanRefsAux fuel cs = [] := by
  induction fuel generalizing cs with
  | zero => rfl
  | succ n ih =>
    cases cs with
    | nil => rfl
    | cons c rest =>
      rw [scanRefsAux]
      rcases hm : matchRefAt (c :: rest) with _ | ⟨ref, remaining⟩
      · exact ih rest (hasPair_tail _ _ _ _ h)
      · exfalso
        unfold matchRefAt at hm
        split at hm
        all_goals try exact Option.noConfusion hm
        rename_i cs0 rest0 heq
        rw [heq, hasPair_cons2] at h
        simp at h

/-- An adjacent pair with both characters different from the separator
distributes over joining with that separator. -/
theorem hasPair_append_newline (a b : Char) (ha : a ≠ '\n') (hb : b ≠ '\n')
    (xs ys : List Char) :
    hasPair a b (xs ++ '\n' :: ys) = (hasPair a b xs || hasPair a b ys) := by
  have ha2 : ('\n' = a) = False := eq_false (fun he => ha he.symm)
  have hb2 : ('\n' = b) = False := eq_false (fun he => hb he.symm)
  have hnil : hasPair a b ('\n' :: ys) = hasPair a b ys := by
    cases ys with
    | nil => rfl
    | cons y t =>
      rw [hasPair_cons2]
      simp [ha2]
  induction xs with
  | nil =>
    rw [List.nil_append, hnil]
    simp [hasPair]
  | cons x xt ih =>
    cases xt with
    | nil =>
      rw [show [x] ++ '\n' :: ys = x :: '\n' :: ys from rfl, hasPair_cons2, hnil]
      simp [hb2, hasPair]
    | cons x2 t2 =>
      rw [show (x :: x2 :: t2) ++ '\n' :: ys = x :: x2 :: (t2 ++ '\n' :: ys) from rfl,
        hasPair_cons2]
      rw [List.cons_append] at ih
      rw [ih, hasPair_cons2, Bool.or_assoc]

/-- Joining literal lines with newlines yields a literal template. -/
theorem isLiteralTemplate_joinNL (lines : List String)
    (h : ∀ line ∈ lines, isLiteralTemplate line = true) :
    isLiteralTemplate (joinNL lines) = true := by
  induction lines with
  | nil => rfl
  | cons s rest ih =>
    cases rest with
    | nil => exact h s (List.mem_cons_self s [])
    | cons s2 t2 =>
      have hs := h s (List.mem_cons_self s _)
      have hrest : isLiteralTemplate (joinNL (s2 :: t2)) = true :=
        ih (fun l hl => h l (List.mem_cons_of_mem s hl))
      have hdata : (joinNL (s :: s2 :: t2)).data
          = s.data ++ '\n' :: (joinNL (s2 :: t2)).data := by
        show (s ++ "\n" ++ joinNL (s2 :: t2)).data = _
        rw [String.data_append, String.data_append, List.append_assoc]
        rfl
      unfold isLiteralTemplate at hs hrest ⊢
      rw [hdata]
      rw [hasPair_append_newline _ _ (by decide) (by decide),
        hasPair_append_newline _ _ (by decide) (by decide),
        hasPair_append_newline _ _ (by decide) (by decide)]
      simp only [Bool.and_eq_true, Bool.not_eq_true', Bool.or_eq_false_iff] at hs hrest ⊢
      tauto

/-- A literal composition validates with no diagnostics against any
resolved-library map. -/
theorem validateReferences_literal (asm : PromptAssembly)
    (libs : List (String × ComponentLibrary))
    (h : isLiteralTemplate (joinNL asm.composition) = true) :
    validateReferences asm libs = [] := by
  unfold validateReferences scanComponentRefs
  unfold isLiteralTemplate at h
  simp only [Bool.and_eq_true, Bool.not_eq_true'] at h
  rw [scanRefsAux_nil_of_no_marker _ _ h.1.1]
  rfl

/-- C2: for an assembly with an empty imports map and only literal
composition lines, `compile` (rendering through an engine that, like
Nunjucks, returns literal text unchanged) outputs exactly the composition
joined by newlines, cleaned by the blank-line collapse and trimmed; and the
concrete composition `["Line 1","","","","Line 2"]` cleans to exactly
`"Line 1\n\nLine 2"`. -/
theorem compile_literal_no_imports (env : LoaderEnv) (fuel : Nat) (st : RState)
    (asm : PromptAssembly) (vars : List (String × JSValue)) (bp : Option String)
    (engine : String → List (String × JSValue) → Except JSThrown String)
    (tv : List (String × JSValue))
    (hImports : asm.imports = [])
    (hFuel : 0 < fuel)
    (hLit : ∀ line ∈ asm.composition, isLiteralTemplate line = true)
    (hEngine : ∀ s ctx, isLiteralTemplate s = true → engine s ctx = .ok s)
    (hMiss : checkMissingVariables asm vars = [])
    (hTy : typeCheckVariables asm vars = .ok tv) :
    compile env fuel st asm vars bp engine
      = .ok (cleanCompiledPrompt (joinNL asm.composition))
    ∧ cleanCompiledPrompt (joinNL ["Line 1", "", "", "", "Line 2"]) = "Line 1\n\nLine 2" := by
  have hjoin : isLiteralTemplate (joinNL asm.composition) = true :=
    isLiteralTemplate_joinNL _ hLit
  refine ⟨?_, rfl⟩
  obtain ⟨n, rfl⟩ : ∃ n, fuel = n + 1 := ⟨fuel - 1, by omega⟩
  have hres : resolveDependencies env (n + 1) asm bp st = (.ok [], st) := by
    rw [resolveDependencies, hImports]
    cases n <;> rfl
  unfold compile
  rw [hres]
  simp only [validateReferences_literal asm [] hjoin, hMiss, List.length_nil,
    lt_self_iff_false, if_false, hTy, hEngine _ _ hjoin]

/-- C2 witness: the literal-compilation theorem applied at the concrete
spec example. -/
theorem compile_literal_no_imports_witness :
    compile failEnv 1 ⟨[], []⟩ c2Asm [] none literalEngine
      = .ok (cleanCompiledPrompt (joinNL c2Asm.composition))
    ∧ compile failEnv 1 ⟨[], []⟩ c2Asm [] none literalEngine = .ok "Line 1\n\nLine 2" := by
  have h := (compile_literal_no_imports failEnv 1 ⟨[], []⟩ c2Asm [] none literalEngine []
    rfl (by omega) (by decide) (fun s ctx _ => rfl) rfl rfl).1
  exact ⟨h, h.trans (by rfl)⟩

/-! ## Claim C1 -/

theorem hpath_self : ∀ bp, resolveImportPath "/a/self.pal" bp = "/a/self.pal" := by
  intro bp
  cases bp <;> rfl

theorem hpath_A : ∀ bp, resolveImportPath "/a/A.pal" bp = "/a/A.pal" := by
  intro bp
  cases bp <;> rfl

theorem hpath_B : ∀ bp, resolveImportPath "/a/B.pal" bp = "/a/B.pal" := by
  intro bp
  cases bp <;> rfl

/-- The 1-cycle run exhausts any fuel at every level: the visited set is
fresh in each nested `resolveDependencies`, so nothing stops the descent and
nothing is ever cached. -/
theorem selfImport_aux : ∀ n : Nat,
    (∀ bp calls, (resolveDependencies selfEnv n selfAsm bp ⟨[], calls⟩).1 = .error .fuelOut)
    ∧ (∀ resolved calls,
        (loadDependencyRecursive selfEnv n "self" "/a/self.pal" resolved [] ⟨[], calls⟩).1
          = .error .fuelOut) := by
  intro n
  induction n using Nat.strong_induction_on with
  | _ n ih =>
    constructor
    · intro bp calls
      match n with
      | 0 => rfl
      | 1 => rfl
      | (m+2) =>
        have hl := (ih m (by omega)).2 [] calls
        rcases hld : loadDependencyRecursive selfEnv m "self" "/a/self.pal" [] [] ⟨[], calls⟩
          with ⟨r, st2⟩
        rw [hld] at hl
        simp only [] at hl
        subst hl
        show (match loadDependencyRecursive selfEnv m "self"
            (resolveImportPath "/a/self.pal" bp) [] [] ⟨[], calls⟩ with
          | (.ok resolvedNext, stNext) =>
              resolveImportsLoop selfEnv m [] bp resolvedNext [] stNext
          | (.error e, stNext) => (.error e, stNext)).1 = .error .fuelOut
        rw [hpath_self bp, hld]
    · intro resolved calls
      match n with
      | 0 => rfl
      | (k+1) =>
        have hP := (ih k (by omega)).1 (some (dirname "/a/self.pal")) (calls ++ ["/a/self.pal"])
        rcases hN : resolveDependencies selfEnv k selfAsm (some (dirname "/a/self.pal"))
            ⟨[], calls ++ ["/a/self.pal"]⟩ with ⟨r, stN⟩
        rw [hN] at hP
        simp only [] at hP
        subst hP
        have hunf : loadDependencyRecursive selfEnv (k+1) "self" "/a/self.pal" resolved []
            ⟨[], calls⟩ = (match resolveDependencies selfEnv k selfAsm
              (some (dirname "/a/self.pal")) ⟨[], calls ++ ["/a/self.pal"]⟩ with
            | (.ok nestedResolved, stNext) =>
                (.ok (setKey (nestedResolved.foldl
                    (fun (m : List (String × ComponentLibrary)) kv => setKey m kv.1 kv.2)
                    resolved) "self" (createLibraryFromAssembly selfAsm)),
                 { stNext with
                    cache := setKey stNext.cache "/a/self.pal"
                      (createLibraryFromAssembly selfAsm) })
            | (.error (.circular msg p vs), stNext) => (.error (.circular msg p vs), stNext)
            | (.error .fuelOut, stNext) => (.error .fuelOut, stNext)
            | (.error (.resolverErr msg p), stNext) =>
                (.error (.resolverErr (s!"Failed to load dependency /a/self.pal: {msg}")
                  "/a/self.pal"), stNext) : Except RErr (List (String × ComponentLibrary)) × RState)
          := rfl
        rw [hunf, hN]

/-- The 2-cycle `A → B → A` run exhausts any fuel at every level, for the
same reason. -/
theorem twoCycle_aux : ∀ n : Nat,
    (∀ bp calls, (resolveDependencies cycleEnv n cycleAsmA bp ⟨[], calls⟩).1 = .error .fuelOut)
    ∧ (∀ bp calls, (resolveDependencies cycleEnv n cycleAsmB bp ⟨[], calls⟩).1 = .error .fuelOut)
    ∧ (∀ resolved calls,
        (loadDependencyRecursive cycleEnv n "b" "/a/B.pal" resolved [] ⟨[], calls⟩).1
          = .error .fuelOut)
    ∧ (∀ resolved calls,
        (loadDependencyRecursive cycleEnv n "a" "/a/A.pal" resolved [] ⟨[], calls⟩).1
          = .error .fuelOut) := by
  intro n
  induction n using Nat.strong_induction_on with
  | _ n ih =>
    refine ⟨?_, ?_, ?_, ?_⟩
    · intro bp calls
      match n with
      | 0 => rfl
      | 1 => rfl
      | (m+2) =>
        have hl := (ih m (by omega)).2.2.1 [] calls
        rcases hld : loadDependencyRecursive cycleEnv m "b" "/a/B.pal" [] [] ⟨[], calls⟩
          with ⟨r, st2⟩
        rw [hld] at hl
        simp only [] at hl
        subst hl
        show (match loadDependencyRecursive cycleEnv m "b"
            (resolveImportPath "/a/B.pal" bp) [] [] ⟨[], calls⟩ with
          | (.ok resolvedNext, stNext) =>
              resolveImportsLoop cycleEnv m [] bp resolvedNext [] stNext
          | (.error e, stNext) => (.error e, stNext)).1 = .error .fuelOut
        rw [hpath_B bp, hld]
    · intro bp calls
      match n with
      | 0 => rfl
      | 1 => rfl
      | (m+2) =>
        have hl := (ih m (by omega)).2.2.2 [] calls
        rcases hld : loadDependencyRecursive cycleEnv m "a" "/a/A.pal" [] [] ⟨[], calls⟩
          with ⟨r, st2⟩
        rw [hld] at hl
        simp only [] at hl
        subst hl
        show (match loadDependencyRecursive cycleEnv m "a"
            (resolveImportPath "/a/A.pal" bp) [] [] ⟨[], calls⟩ with
          | (.ok resolvedNext, stNext) =>
              resolveImportsLoop cycleEnv m [] bp resolvedNext [] stNext
          | (.error e, stNext) => (.error e, stNext)).1 = .error .fuelOut
        rw [hpath_A bp, hld]
    · intro resolved calls
      match n with
      | 0 => rfl
      | (k+1) =>
        have hP := (ih k (by omega)).2.1 (some (dirname "/a/B.pal")) (calls ++ ["/a/B.pal"])
        rcases hN : resolveDependencies cycleEnv k cycleAsmB (some (dirname "/a/B.pal"))
            ⟨[], calls ++ ["/a/B.pal"]⟩ with ⟨r, stN⟩
        rw [hN] at hP
        simp only [] at hP
        subst hP
        have hunf : loadDependencyRecursive cycleEnv (k+1) "b" "/a/B.pal" resolved []
            ⟨[], calls⟩ = (match resolveDependencies cycleEnv k cycleAsmB
              (some (dirname "/a/B.pal")) ⟨[], calls ++ ["/a/B.pal"]⟩ with
            | (.ok nestedResolved, stNext) =>
                (.ok (setKey (nestedResolved.foldl
                    (fun (m : List (String × ComponentLibrary)) kv => setKey m kv.1 kv.2)
                    resolved) "b" (createLibraryFromAssembly cycleAsmB)),
                 { stNext with
                    cache := setKey stNext.cache "/a/B.pal"
                      (createLibraryFromAssembly cycleAsmB) })
            | (.error (.circular msg p vs), stNext) => (.error (.circular msg p vs), stNext)
            | (.error .fuelOut, stNext) => (.error .fuelOut, stNext)
            | (.error (.resolverErr msg p), stNext) =>
                (.error (.resolverErr (s!"Failed to load dependency /a/B.pal: {msg}")
                  "/a/B.pal"), stNext) : Except RErr (List (String × ComponentLibrary)) × RState)
          := rfl
        rw [hunf, hN]
    · intro resolved calls
      match n with
      | 0 => rfl
      | (k+1) =>
        have hP := (ih k (by omega)).1 (some (dirname "/a/A.pal")) (calls ++ ["/a/A.pal"])
        rcases hN : resolveDependencies cycleEnv k cycleAsmA (some (dirname "/a/A.pal"))
            ⟨[], calls ++ ["/a/A.pal"]⟩ with ⟨r, stN⟩
        rw [hN] at hP
        simp only [] at hP
        subst hP
        have hunf : loadDependencyRecursive cycleEnv (k+1) "a" "/a/A.pal" resolved []
            ⟨[], calls⟩ = (match resolveDependencies cycleEnv k cycleAsmA
              (some (dirname "/a/A.pal")) ⟨[], calls ++ ["/a/A.pal"]⟩ with
            | (.ok nestedResolved, stNext) =>
                (.ok (setKey (nestedResolved.foldl
                    (fun (m : List (String × ComponentLibrary)) kv => setKey m kv.1 kv.2)
                    resolved) "a" (createLibraryFromAssembly cycleAsmA)),
                 { stNext with
                    cache := setKey stNext.cache "/a/A.pal"
                      (createLibraryFromAssembly cycleAsmA) })
            | (.error (.circular msg p vs), stNext) => (.error (.circular msg p vs), stNext)
            | (.error .fuelOut, stNext) => (.error .fuelOut, stNext)
            | (.error (.resolverErr msg p), stNext) =>
                (.error (.resolverErr (s!"Failed to load dependency /a/A.pal: {msg}")
                  "/a/A.pal"), stNext) : Except RErr (List (String × ComponentLibrary)) × RState)
          := rfl
        rw [hunf, hN]

/-- C1 (code-bug record): for the assembly at `/a/self.pal` that imports
itself (cycle of length one) and for the pair `/a/A.pal` ↔ `/a/B.pal`
(cycle of length two through one intermediate), `resolveDependencies`
exhausts every amount of fuel: the recursion never terminates and in
particular never raises the claimed circular-dependency error.  Each nested
resolution allocates a fresh `visitedPaths` set, so the cycle guard
`visitedPaths.has(path)` never fires, contradicting the claim that these
cycles fail fast with `CircularDependencyError`. -/
theorem resolveDependencies_cycle_diverges :
    (∀ fuel : Nat,
      (resolveDependencies selfEnv fuel selfAsm none ⟨[], []⟩).1 = .error .fuelOut)
    ∧ (∀ fuel : Nat,
      (resolveDependencies cycleEnv fuel cycleAsmA none ⟨[], []⟩).1 = .error .fuelOut)
    ∧ (∀ fuel msg p vs,
      (resolveDependencies selfEnv fuel selfAsm none ⟨[], []⟩).1
        ≠ .error (.circular msg p vs))
    ∧ (∀ fuel msg p vs,
      (resolveDependencies cycleEnv fuel cycleAsmA none ⟨[], []⟩).1
        ≠ .error (.circular msg p vs)) := by
  refine ⟨fun fuel => (selfImport_aux fuel).1 none [],
          fun fuel => (twoCycle_aux fuel).1 none [], ?_, ?_⟩
  · intro fuel msg p vs
    rw [(selfImport_aux fuel).1 none []]
    simp
  · intro fuel msg p vs
    rw [(twoCycle_aux fuel).1 none []]
    simp

end Pal

namespace Pal
theorem loadDep_visited (env : LoaderEnv) (n : Nat) (al path : String)
    (resolved : List (String × ComponentLibrary)) (visited : List String) (st : RState)
    (hv : visited.contains path = true) :
    loadDependencyRecursive env (n+1) al path resolved visited st
      = (.error (.circular (s!"Circular dependency detected in path: {path}") path visited), st) := by
  rw [loadDependencyRecursive, if_pos hv]

theorem loadDep_hit (env : LoaderEnv) (n : Nat) (al path : String)
    (resolved : List (String × ComponentLibrary)) (visited : List String) (st : RState)
    (lib : ComponentLibrary)
    (hv : visited.contains path = false)
    (hc : getKey st.cache path = some lib) :
    loadDependencyRecursive env (n+1) al path resolved visited st
      = (.ok (setKey resolved al lib), st) := by
  rw [loadDependencyRecursive, if_neg (by simp only [hv]; exact Bool.false_ne_true), hc]

theorem loadDep_lib (env : LoaderEnv) (n : Nat) (al path : String)
    (resolved : List (String × ComponentLibrary)) (visited : List String) (st : RState)
    (hv : visited.contains path = false)
    (hc : getKey st.cache path = none)
    (hlib : isLibraryPath path = true) :
    loadDependencyRecursive env (n+1) al path resolved visited st
      = match env.loadComponentLibrary path with
        | .ok library =>
            (.ok (setKey resolved al library),
             { cache := setKey st.cache path library, calls := st.calls ++ [path] })
        | .error msg =>
            (.error (.resolverErr (s!"Failed to load dependency {path}: {msg}") path),
             { st with calls := st.calls ++ [path] }) := by
  rw [loadDependencyRecursive, if_neg (by simp only [hv]; exact Bool.false_ne_true), hc, if_pos hlib]

theorem loadDep_asm (env : LoaderEnv) (n : Nat) (al path : String)
    (resolved : List (String × ComponentLibrary)) (visited : List String) (st : RState)
    (nested : PromptAssembly)
    (hv : visited.contains path = false)
    (hc : getKey st.cache path = none)
    (hlib : isLibraryPath path = false)
    (hasm : isAssemblyPath path = true)
    (henv : env.loadPromptAssembly path = .ok nested) :
    loadDependencyRecursive env (n+1) al path resolved visited st
      = match resolveDependencies env n nested (some (dirname path))
          { st with calls := st.calls ++ [path] } with
        | (.ok nestedResolved, stNext) =>
            (.ok (setKey (nestedResolved.foldl
                (fun (m : List (String × ComponentLibrary)) kv => setKey m kv.1 kv.2) resolved)
              al (createLibraryFromAssembly nested)),
             { stNext with cache := setKey stNext.cache path (createLibraryFromAssembly nested) })
        | (.error (.circular msg p vs), stNext) => (.error (.circular msg p vs), stNext)
        | (.error .fuelOut, stNext) => (.error .fuelOut, stNext)
        | (.error (.resolverErr msg p), stNext) =>
            (.error (.resolverErr (s!"Failed to load dependency {path}: {msg}") path), stNext) := by
  rw [loadDependencyRecursive, if_neg (by simp only [hv]; exact Bool.false_ne_true), hc, if_neg (by simp only [hlib]; exact Bool.false_ne_true),
    if_pos hasm, henv]

theorem loadDep_asm_loaderr (env : LoaderEnv) (n : Nat) (al path : String)
    (resolved : List (String × ComponentLibrary)) (visited : List String) (st : RState)
    (msg : String)
    (hv : visited.contains path = false)
    (hc : getKey st.cache path = none)
    (hlib : isLibraryPath path = false)
    (hasm : isAssemblyPath path = true)
    (henv : env.loadPromptAssembly path = .error msg) :
    loadDependencyRecursive env (n+1) al path resolved visited st
      = (.error (.resolverErr (s!"Failed to load dependency {path}: {msg}") path),
         { st with calls := st.calls ++ [path] }) := by
  rw [loadDependencyRecursive, if_neg (by simp only [hv]; exact Bool.false_ne_true), hc, if_neg (by simp only [hlib]; exact Bool.false_ne_true),
    if_pos hasm, henv]

theorem loadDep_unsupported (env : LoaderEnv) (n : Nat) (al path : String)
    (resolved : List (String × ComponentLibrary)) (visited : List String) (st : RState)
    (hv : visited.contains path = false)
    (hc : getKey st.cache path = none)
    (hlib : isLibraryPath path = false)
    (hasm : isAssemblyPath path = false) :
    loadDependencyRecursive env (n+1) al path resolved visited st
      = (.error (.resolverErr
          (s!"Failed to load dependency {path}: Unsupported file type: {path}") path), st) := by
  rw [loadDependencyRecursive, if_neg (by simp only [hv]; exact Bool.false_ne_true), hc, if_neg (by simp only [hlib]; exact Bool.false_ne_true),
    if_neg (by simp only [hasm]; exact Bool.false_ne_true)]
end Pal

namespace Pal
theorem resolver_cached_frozen (env : LoaderEnv) :
    ∀ n : Nat,
      (∀ asm bp st (p : String) r st2,
        resolveDependencies env n asm bp st = (r, st2) →
        (getKey st.cache p).isSome = true →
        (getKey st2.cache p).isSome = true ∧ st2.calls.count p = st.calls.count p)
      ∧
      (∀ imports bp resolved visited st (p : String) r st2,
        resolveImportsLoop env n imports bp resolved visited st = (r, st2) →
        (getKey st.cache p).isSome = true →
        (getKey st2.cache p).isSome = true ∧ st2.calls.count p = st.calls.count p)
      ∧
      (∀ al path resolved visited st (p : String) r st2,
        loadDependencyRecursive env n al path resolved visited st = (r, st2) →
        (getKey st.cache p).isSome = true →
        (getKey st2.cache p).isSome = true ∧ st2.calls.count p = st.calls.count p) := by
  intro n
  induction n with
  | zero =>
    refine ⟨?_, ?_, ?_⟩
    · intro asm bp st p r st2 heq hp
      rw [resolveDependencies] at heq
      cases heq
      exact ⟨hp, rfl⟩
    · intro imports bp resolved visited st p r st2 heq hp
      cases imports with
      | nil => rw [resolveImportsLoop] at heq; cases heq; exact ⟨hp, rfl⟩
      | cons i rest =>
        obtain ⟨al, ip⟩ := i
        rw [resolveImportsLoop] at heq; cases heq; exact ⟨hp, rfl⟩
    · intro al path resolved visited st p r st2 heq hp
      rw [loadDependencyRecursive] at heq
      cases heq
      exact ⟨hp, rfl⟩
  | succ n ih =>
    refine ⟨?_, ?_, ?_⟩
    · intro asm bp st p r st2 heq hp
      rw [resolveDependencies] at heq
      exact ih.2.1 asm.imports bp [] [] st p r st2 heq hp
    · intro imports bp resolved visited st p r st2 heq hp
      cases imports with
      | nil => rw [resolveImportsLoop] at heq; cases heq; exact ⟨hp, rfl⟩
      | cons i rest =>
        obtain ⟨al, ip⟩ := i
        rw [resolveImportsLoop] at heq
        rcases hL : loadDependencyRecursive env n al (resolveImportPath ip bp)
            resolved visited st with ⟨r1, st1⟩
        rw [hL] at heq
        obtain ⟨h1, h2⟩ := ih.2.2 al (resolveImportPath ip bp) resolved visited st p r1 st1 hL hp
        cases r1 with
        | error e => cases heq; exact ⟨h1, h2⟩
        | ok rn =>
          obtain ⟨h3, h4⟩ := ih.2.1 rest bp rn visited st1 p r st2 heq h1
          exact ⟨h3, h4.trans h2⟩
    · intro al path resolved visited st p r st2 heq hp
      cases hv : visited.contains path with
      | true =>
        rw [loadDep_visited env n al path resolved visited st hv] at heq
        cases heq; exact ⟨hp, rfl⟩
      | false =>
      cases hc : getKey st.cache path with
      | some lib =>
        rw [loadDep_hit env n al path resolved visited st lib hv hc] at heq
        cases heq; exact ⟨hp, rfl⟩
      | none =>
      have hne : (p == path) = false := by
        apply beq_eq_false_iff_ne.mpr
        intro hpp
        rw [hpp, hc] at hp
        exact Bool.noConfusion hp
      have hcount : (st.calls ++ [path]).count p = st.calls.count p := by
        simp [List.count_append, List.count_cons, List.count_nil, hne, Ne.symm (beq_eq_false_iff_ne.mp hne)]
      cases hlib : isLibraryPath path with
      | true =>
        rw [loadDep_lib env n al path resolved visited st hv hc hlib] at heq
        cases henv : env.loadComponentLibrary path with
        | ok library =>
          rw [henv] at heq
          cases heq
          exact ⟨isSome_getKey_setKey st.cache path p library hp, hcount⟩
        | error msg =>
          rw [henv] at heq
          cases heq
          exact ⟨hp, hcount⟩
      | false =>
      cases hasm : isAssemblyPath path with
      | false =>
        rw [loadDep_unsupported env n al path resolved visited st hv hc hlib hasm] at heq
        cases heq; exact ⟨hp, rfl⟩
      | true =>
      cases henv : env.loadPromptAssembly path with
      | error msg =>
        rw [loadDep_asm_loaderr env n al path resolved visited st msg hv hc hlib hasm henv] at heq
        cases heq
        exact ⟨hp, hcount⟩
      | ok nested =>
        rw [loadDep_asm env n al path resolved visited st nested hv hc hlib hasm henv] at heq
        rcases hN : resolveDependencies env n nested (some (dirname path))
            { st with calls := st.calls ++ [path] } with ⟨rN, stN⟩
        rw [hN] at heq
        obtain ⟨h1, h2⟩ := ih.1 nested (some (dirname path))
          { st with calls := st.calls ++ [path] } p rN stN hN hp
        have h2c : stN.calls.count p = st.calls.count p := h2.trans hcount
        rcases rN with e | nestedResolved
        · rcases e with ⟨m, q, vs⟩ | ⟨m, q⟩ | _ <;> (cases heq; exact ⟨h1, h2c⟩)
        · cases heq
          exact ⟨isSome_getKey_setKey stN.cache path p (createLibraryFromAssembly nested) h1, h2c⟩
end Pal

namespace Pal
theorem resolver_success_caches (env : LoaderEnv) :
    ∀ n : Nat,
      (∀ asm bp st m st2,
        resolveDependencies env n asm bp st = (.ok m, st2) →
        ∀ p : String, p ∈ st2.calls → p ∈ st.calls ∨ (getKey st2.cache p).isSome = true)
      ∧
      (∀ imports bp resolved visited st m st2,
        resolveImportsLoop env n imports bp resolved visited st = (.ok m, st2) →
        ∀ p : String, p ∈ st2.calls → p ∈ st.calls ∨ (getKey st2.cache p).isSome = true)
      ∧
      (∀ al path resolved visited st m st2,
        loadDependencyRecursive env n al path resolved visited st = (.ok m, st2) →
        ∀ p : String, p ∈ st2.calls → p ∈ st.calls ∨ (getKey st2.cache p).isSome = true) := by
  intro n
  induction n with
  | zero =>
    refine ⟨?_, ?_, ?_⟩
    · intro asm bp st m st2 heq
      rw [resolveDependencies] at heq
      simp at heq
    · intro imports bp resolved visited st m st2 heq p hmem
      cases imports with
      | nil => rw [resolveImportsLoop] at heq; cases heq; exact .inl hmem
      | cons i rest =>
        obtain ⟨al, ip⟩ := i
        rw [resolveImportsLoop] at heq
        simp at heq
    · intro al path resolved visited st m st2 heq
      rw [loadDependencyRecursive] at heq
      simp at heq
  | succ n ih =>
    refine ⟨?_, ?_, ?_⟩
    · intro asm bp st m st2 heq p hmem
      rw [resolveDependencies] at heq
      exact ih.2.1 asm.imports bp [] [] st m st2 heq p hmem
    · intro imports bp resolved visited st m st2 heq p hmem
      cases imports with
      | nil => rw [resolveImportsLoop] at heq; cases heq; exact .inl hmem
      | cons i rest =>
        obtain ⟨al, ip⟩ := i
        rw [resolveImportsLoop] at heq
        rcases hL : loadDependencyRecursive env n al (resolveImportPath ip bp)
            resolved visited st with ⟨r1, st1⟩
        rw [hL] at heq
        cases r1 with
        | error e => simp at heq
        | ok rn =>
          rcases ih.2.1 rest bp rn visited st1 m st2 heq p hmem with h | h
          · rcases ih.2.2 al (resolveImportPath ip bp) resolved visited st rn st1 hL p h
                with h2 | h2
            · exact .inl h2
            · exact .inr ((resolver_cached_frozen env n).2.1 rest bp rn visited st1 p
                (.ok m) st2 heq h2).1
          · exact .inr h
    · intro al path resolved visited st m st2 heq p hmem
      cases hv : visited.contains path with
      | true =>
        rw [loadDep_visited env n al path resolved visited st hv] at heq
        simp at heq
      | false =>
      cases hc : getKey st.cache path with
      | some lib =>
        rw [loadDep_hit env n al path resolved visited st lib hv hc] at heq
        cases heq; exact .inl hmem
      | none =>
      cases hlib : isLibraryPath path with
      | true =>
        rw [loadDep_lib env n al path resolved visited st hv hc hlib] at heq
        cases henv : env.loadComponentLibrary path with
        | ok library =>
          rw [henv] at heq
          cases heq
          rcases List.mem_append.mp hmem with h | h
          · exact .inl h
          · have hpp : p = path := by simpa using h
            subst hpp
            exact .inr (by rw [getKey_setKey_same]; rfl)
        | error msg => rw [henv] at heq; simp at heq
      | false =>
      cases hasm : isAssemblyPath path with
      | false =>
        rw [loadDep_unsupported env n al path resolved visited st hv hc hlib hasm] at heq
        simp at heq
      | true =>
      cases henv : env.loadPromptAssembly path with
      | error msg =>
        rw [loadDep_asm_loaderr env n al path resolved visited st msg hv hc hlib hasm henv] at heq
        simp at heq
      | ok nested =>
        rw [loadDep_asm env n al path resolved visited st nested hv hc hlib hasm henv] at heq
        rcases hN : resolveDependencies env n nested (some (dirname path))
            { st with calls := st.calls ++ [path] } with ⟨rN, stN⟩
        rw [hN] at heq
        rcases rN with e | nestedResolved
        · rcases e with ⟨m1, q, vs⟩ | ⟨m1, q⟩ | _ <;> simp at heq
        · cases heq
          rcases ih.1 nested (some (dirname path)) { st with calls := st.calls ++ [path] }
              nestedResolved stN hN p hmem with h | h
          · rcases List.mem_append.mp h with h2 | h2
            · exact .inl h2
            · have hpp : p = path := by simpa using h2
              subst hpp
              exact .inr (by rw [getKey_setKey_same]; rfl)
          · exact .inr (isSome_getKey_setKey stN.cache path p (createLibraryFromAssembly nested) h)
end Pal

namespace Pal
theorem resolver_pfree (env : LoaderEnv) (p : String)
    (Hp : ∀ q asm1, env.loadPromptAssembly q = .ok asm1 →
        ∀ i ∈ asm1.imports, ∀ bp, resolveImportPath i.2 bp ≠ p) :
    ∀ n : Nat,
      (∀ asm bp st r st2,
        (∀ i ∈ asm.imports, resolveImportPath i.2 bp ≠ p) →
        resolveDependencies env n asm bp st = (r, st2) →
        getKey st.cache p = none → getKey st2.cache p = none)
      ∧
      (∀ imports bp resolved visited st r st2,
        (∀ i ∈ imports, resolveImportPath i.2 bp ≠ p) →
        resolveImportsLoop env n imports bp resolved visited st = (r, st2) →
        getKey st.cache p = none → getKey st2.cache p = none)
      ∧
      (∀ al path resolved visited st r st2,
        path ≠ p →
        loadDependencyRecursive env n al path resolved visited st = (r, st2) →
        getKey st.cache p = none → getKey st2.cache p = none) := by
  intro n
  induction n with
  | zero =>
    refine ⟨?_, ?_, ?_⟩
    · intro asm bp st r st2 _ heq hfree
      rw [resolveDependencies] at heq
      cases heq; exact hfree
    · intro imports bp resolved visited st r st2 _ heq hfree
      cases imports with
      | nil => rw [resolveImportsLoop] at heq; cases heq; exact hfree
      | cons i rest =>
        obtain ⟨al, ip⟩ := i
        rw [resolveImportsLoop] at heq; cases heq; exact hfree
    · intro al path resolved visited st r st2 _ heq hfree
      rw [loadDependencyRecursive] at heq
      cases heq; exact hfree
  | succ n ih =>
    refine ⟨?_, ?_, ?_⟩
    · intro asm bp st r st2 h heq hfree
      rw [resolveDependencies] at heq
      exact ih.2.1 asm.imports bp [] [] st r st2 h heq hfree
    · intro imports bp resolved visited st r st2 h heq hfree
      cases imports with
      | nil => rw [resolveImportsLoop] at heq; cases heq; exact hfree
      | cons i rest =>
        obtain ⟨al, ip⟩ := i
        rw [resolveImportsLoop] at heq
        rcases hL : loadDependencyRecursive env n al (resolveImportPath ip bp)
            resolved visited st with ⟨r1, st1⟩
        rw [hL] at heq
        have hfree1 : getKey st1.cache p = none :=
          ih.2.2 al (resolveImportPath ip bp) resolved visited st r1 st1
            (h (al, ip) (List.mem_cons_self _ _)) hL hfree
        cases r1 with
        | error e => cases heq; exact hfree1
        | ok rn =>
          exact ih.2.1 rest bp rn visited st1 r st2
            (fun i hi => h i (List.mem_cons_of_mem _ hi)) heq hfree1
    · intro al path resolved visited st r st2 hne heq hfree
      cases hv : visited.contains path with
      | true =>
        rw [loadDep_visited env n al path resolved visited st hv] at heq
        cases heq; exact hfree
      | false =>
      cases hc : getKey st.cache path with
      | some lib =>
        rw [loadDep_hit env n al path resolved visited st lib hv hc] at heq
        cases heq; exact hfree
      | none =>
      cases hlib : isLibraryPath path with
      | true =>
        rw [loadDep_lib env n al path resolved visited st hv hc hlib] at heq
        cases henv : env.loadComponentLibrary path with
        | ok library =>
          rw [henv] at heq
          cases heq
          rw [getKey_setKey_other st.cache path p library (Ne.symm hne)]
          exact hfree
        | error msg => rw [henv] at heq; cases heq; exact hfree
      | false =>
      cases hasm : isAssemblyPath path with
      | false =>
        rw [loadDep_unsupported env n al path resolved visited st hv hc hlib hasm] at heq
        cases heq; exact hfree
      | true =>
      cases henv : env.loadPromptAssembly path with
      | error msg =>
        rw [loadDep_asm_loaderr env n al path resolved visited st msg hv hc hlib hasm henv] at heq
        cases heq; exact hfree
      | ok nested =>
        rw [loadDep_asm env n al path resolved visited st nested hv hc hlib hasm henv] at heq
        rcases hN : resolveDependencies env n nested (some (dirname path))
            { st with calls := st.calls ++ [path] } with ⟨rN, stN⟩
        rw [hN] at heq
        have hfreeN : getKey stN.cache p = none :=
          ih.1 nested (some (dirname path)) { st with calls := st.calls ++ [path] } rN stN
            (fun i hi => Hp path nested henv i hi (some (dirname path))) hN hfree
        rcases rN with e | nestedResolved
        · rcases e with ⟨m1, q, vs⟩ | ⟨m1, q⟩ | _ <;> (cases heq; exact hfreeN)
        · cases heq
          rw [getKey_setKey_other stN.cache path p (createLibraryFromAssembly nested)
            (Ne.symm hne)]
          exact hfreeN
end Pal

namespace Pal
/-- C5 (counterexample to the literal claim): with a loader that fails for
`/x/l.pal.lib`, two successive `resolveDependencies` calls on `c5Asm`
sharing one cache invoke the loader twice in total for that path — the
failed first load caches nothing, so the second call re-reads the path,
refuting "at most once in total for that path" for every path. -/
theorem c5_counterexample :
    ((resolveDependencies failEnv 3 c5Asm none
        ((resolveDependencies failEnv 3 c5Asm none ⟨[], []⟩).2)).2).calls.count
          "/x/l.pal.lib" = 2
    ∧ ¬ (((resolveDependencies failEnv 3 c5Asm none
        ((resolveDependencies failEnv 3 c5Asm none ⟨[], []⟩).2)).2).calls.count
          "/x/l.pal.lib" ≤ 1) := by
  constructor
  · rfl
  · decide

/-- C5 (amended): memoization holds for paths whose load succeeded — after a
first `resolveDependencies` call succeeds, every path it invoked the loader
for is in the cache; a second call sharing that cache performs zero loader
invocations for any such path; and on a cache hit
`loadDependencyRecursive` binds the cached library to the alias and returns
with the state unchanged (the path is neither re-read nor re-expanded). -/
theorem resolver_memoization (env : LoaderEnv) (n1 n2 : Nat) (asm : PromptAssembly)
    (bp : Option String) (cache0 : List (String × ComponentLibrary))
    (m : List (String × ComponentLibrary)) (st1 : RState)
    (r2 : Except RErr (List (String × ComponentLibrary))) (st2 : RState) (p : String)
    (h1 : resolveDependencies env n1 asm bp ⟨cache0, []⟩ = (.ok m, st1))
    (hp : p ∈ st1.calls)
    (h2 : resolveDependencies env n2 asm bp ⟨st1.cache, []⟩ = (r2, st2)) :
    (getKey st1.cache p).isSome = true ∧
    st2.calls.count p = 0 ∧
    ∀ al resolved visited lib c, visited.contains p = false →
      getKey st1.cache p = some lib →
      loadDependencyRecursive env (n2 + 1) al p resolved visited ⟨st1.cache, c⟩
        = (.ok (setKey resolved al lib), ⟨st1.cache, c⟩) := by
  have hcached : (getKey st1.cache p).isSome = true := by
    rcases (resolver_success_caches env n1).1 asm bp ⟨cache0, []⟩ m st1 h1 p hp with h | h
    · exact absurd h (List.not_mem_nil p)
    · exact h
  refine ⟨hcached, ?_, ?_⟩
  · exact ((resolver_cached_frozen env n2).1 asm bp ⟨st1.cache, []⟩ p r2 st2 h2 hcached).2
  · intro al resolved visited lib c hvp hlib
    exact loadDep_hit env n2 al p resolved visited ⟨st1.cache, c⟩ lib hvp hlib

theorem resolver_memoization_witness :
    (getKey ([("/x/l.pal.lib", witLib)] : List (String × ComponentLibrary))
        "/x/l.pal.lib").isSome = true ∧
    (resolveDependencies witEnv 3 witAsm none
        ⟨[("/x/l.pal.lib", witLib)], []⟩).2.calls.count "/x/l.pal.lib" = 0 ∧
    loadDependencyRecursive witEnv 4 "a2" "/x/l.pal.lib" [] []
        ⟨[("/x/l.pal.lib", witLib)], []⟩
      = (.ok [("a2", witLib)], ⟨[("/x/l.pal.lib", witLib)], []⟩) := by
  obtain ⟨w1, w2, w3⟩ := resolver_memoization witEnv 3 3 witAsm none []
      [("lib1", witLib)] ⟨[("/x/l.pal.lib", witLib)], ["/x/l.pal.lib"]⟩
      (.ok [("lib1", witLib)]) ⟨[("/x/l.pal.lib", witLib)], []⟩ "/x/l.pal.lib"
      rfl (by simp) rfl
  exact ⟨w1, w2, w3 "a2" [] [] witLib [] rfl rfl⟩
end Pal

namespace Pal
/-- C9: cache atomicity for a single import path `p`, under the hypothesis
`Hp` that no assembly the loader can produce has an import resolving to `p`
(ruling out re-entrant loads of `p`, which in the source recurse without
bound instead of completing).  If `loadDependencyRecursive` on `p` fails
for any reason — loader failure, unsupported suffix, or a failure inside a
nested assembly's resolution — a cache with no entry for `p` still has no
entry for `p` afterwards; and whenever it succeeds, the cache afterwards
holds an entry for `p`, i.e. a library is stored only after its load fully
succeeds.  (The in-progress set is threaded back to the caller unchanged on
both success and failure by construction of the embedding, mirroring the
source's `finally` delete.) -/
theorem cache_atomicity (env : LoaderEnv) (p : String)
    (Hp : ∀ q asm1, env.loadPromptAssembly q = .ok asm1 →
        ∀ i ∈ asm1.imports, ∀ bp, resolveImportPath i.2 bp ≠ p)
    (n : Nat) (al : String) (resolved : List (String × ComponentLibrary))
    (visited : List String) (st : RState) :
    (∀ e st2, loadDependencyRecursive env n al p resolved visited st = (.error e, st2) →
        getKey st.cache p = none → getKey st2.cache p = none)
    ∧
    (∀ m st2, loadDependencyRecursive env n al p resolved visited st = (.ok m, st2) →
        (getKey st2.cache p).isSome = true) := by
  cases n with
  | zero =>
    constructor
    · intro e st2 heq hfree
      rw [loadDependencyRecursive] at heq
      cases heq; exact hfree
    · intro m st2 heq
      rw [loadDependencyRecursive] at heq
      simp at heq
  | succ n =>
    constructor
    · intro e st2 heq hfree
      cases hv : visited.contains p with
      | true =>
        rw [loadDep_visited env n al p resolved visited st hv] at heq
        cases heq; exact hfree
      | false =>
      cases hlib : isLibraryPath p with
      | true =>
        rw [loadDep_lib env n al p resolved visited st hv hfree hlib] at heq
        cases henv : env.loadComponentLibrary p with
        | ok library => rw [henv] at heq; simp at heq
        | error msg => rw [henv] at heq; cases heq; exact hfree
      | false =>
      cases hasm : isAssemblyPath p with
      | false =>
        rw [loadDep_unsupported env n al p resolved visited st hv hfree hlib hasm] at heq
        cases heq; exact hfree
      | true =>
      cases henv : env.loadPromptAssembly p with
      | error msg =>
        rw [loadDep_asm_loaderr env n al p resolved visited st msg hv hfree hlib hasm henv] at heq
        cases heq; exact hfree
      | ok nested =>
        rw [loadDep_asm env n al p resolved visited st nested hv hfree hlib hasm henv] at heq
        rcases hN : resolveDependencies env n nested (some (dirname p))
            { st with calls := st.calls ++ [p] } with ⟨rN, stN⟩
        rw [hN] at heq
        have hfreeN : getKey stN.cache p = none :=
          (resolver_pfree env p Hp n).1 nested (some (dirname p))
            { st with calls := st.calls ++ [p] } rN stN
            (fun i hi => Hp p nested henv i hi (some (dirname p))) hN hfree
        rcases rN with e1 | nestedResolved
        · rcases e1 with ⟨m1, q, vs⟩ | ⟨m1, q⟩ | _ <;> (cases heq; exact hfreeN)
        · simp at heq
    · intro m st2 heq
      cases hv : visited.contains p with
      | true =>
        rw [loadDep_visited env n al p resolved visited st hv] at heq
        simp at heq
      | false =>
      cases hc : getKey st.cache p with
      | some lib =>
        rw [loadDep_hit env n al p resolved visited st lib hv hc] at heq
        cases heq
        rw [hc]; rfl
      | none =>
      cases hlib : isLibraryPath p with
      | true =>
        rw [loadDep_lib env n al p resolved visited st hv hc hlib] at heq
        cases henv : env.loadComponentLibrary p with
        | ok library =>
          rw [henv] at heq
          cases heq
          rw [getKey_setKey_same]; rfl
        | error msg => rw [henv] at heq; simp at heq
      | false =>
      cases hasm : isAssemblyPath p with
      | false =>
        rw [loadDep_unsupported env n al p resolved visited st hv hc hlib hasm] at heq
        simp at heq
      | true =>
      cases henv : env.loadPromptAssembly p with
      | error msg =>
        rw [loadDep_asm_loaderr env n al p resolved visited st msg hv hc hlib hasm henv] at heq
        simp at heq
      | ok nested =>
        rw [loadDep_asm env n al p resolved visited st nested hv hc hlib hasm henv] at heq
        rcases hN : resolveDependencies env n nested (some (dirname p))
            { st with calls := st.calls ++ [p] } with ⟨rN, stN⟩
        rw [hN] at heq
        rcases rN with e1 | nestedResolved
        · rcases e1 with ⟨m1, q, vs⟩ | ⟨m1, q⟩ | _ <;> simp at heq
        · cases heq
          rw [getKey_setKey_same]; rfl

theorem cache_atomicity_witness :
    getKey (RState.mk ([] : List (String × ComponentLibrary)) ["/x/l.pal.lib"]).cache
      "/x/l.pal.lib" = none :=
  (cache_atomicity failEnv "/x/l.pal.lib"
      (fun _ _ hq => Except.noConfusion hq) 1 "lib1" [] [] ⟨[], []⟩).1
    (.resolverErr "Failed to load dependency /x/l.pal.lib: File not found" "/x/l.pal.lib")
    ⟨[], ["/x/l.pal.lib"]⟩ rfl rfl
end Pal

namespace Pal
theorem compile_missing_variables_witness :
    compile failEnv 1 ⟨[], []⟩ c3WitAsm [] none literalEngine =
      .error (.missingVariable "Missing required variables for c3w: x" ["x"]) := by
  have h := (compile_missing_variables failEnv 1 ⟨[], []⟩ c3WitAsm [] none literalEngine
      [] ⟨[], []⟩ rfl rfl).1 (by decide)
  exact h
end Pal
